import Mathlib

/-!
Verification development for the `pki_token_network` core
(`src/pki_token_network/core.py`).

The Python code is shallowly embedded as follows.

* Python dictionaries (the token store `self.tokens`, the key store
  `self.node_keys`) become association lists over `String` keys with
  `dictLookup` / `dictInsert`; insertion preserves the position of an
  existing key and appends new keys, matching CPython dict semantics.
* The ambient nondeterminism of the source (uuid4, wall-clock timestamps,
  RSA key generation randomness) is made explicit: a network state carries
  a counter `fresh` from which timestamps, token ids and key-generation
  seeds are drawn deterministically.
* The cryptographic primitives (SHA-256, RSA-PSS signing/verification) are
  parameters of the operations, collected in `CryptoEnv`.  Signing returns
  an `Option` so that the source's "graceful degradation" on signing
  exceptions is representable.  All theorems hold for every environment.
* Python `raise ValueError(...)` becomes `Except.error`; operations that
  mutate `self` return the post-state explicitly, and the error cases
  return the unchanged state (in the modelled fragment every raise in
  `issue_token` happens before any mutation, as in the source).
* `verify_token`'s `while` loop has no termination guarantee in the
  source (a forged cyclic store loops forever), so it is embedded with an
  explicit fuel parameter; `none` means the loop has not terminated within
  the given fuel.
* Python truthiness on optional strings is modelled by `pyOrStr` /
  `pyOrOpt` (`x or y`), and `f"{x}"` on an optional by `pyStrOpt`
  (`None` prints as "None").
* `str.isalnum` is modelled over the ASCII alphanumerics
  (`Char.isAlphanum`); every concrete input used in a theorem below is
  ASCII, where the two notions agree.
-/

/-- Python `f"{x}"` for `x : Optional[str]`: `None` renders as `"None"`. -/
def pyStrOpt : Option String → String
  | none => "None"
  | some s => s

/-- Python `x or d` for `x : Optional[str]`, `d : str` (empty string is falsy). -/
def pyOrStr : Option String → String → String
  | none, d => d
  | some s, d => if s = "" then d else s

/-- Python `x or d` where both sides are `Optional[str]`. -/
def pyOrOpt : Option String → Option String → Option String
  | none, d => d
  | some s, d => if s = "" then d else some s

/-- Lookup in a Python-style dict modelled as an association list. -/
def dictLookup {α : Type} : List (String × α) → String → Option α
  | [], _ => none
  | (k, v) :: rest, key => if key = k then some v else dictLookup rest key

/-- Assignment `d[key] = val` on a Python-style dict: replaces in place or appends. -/
def dictInsert {α : Type} : List (String × α) → String → α → List (String × α)
  | [], key, val => [(key, val)]
  | (k, v) :: rest, key, val =>
    if key = k then (k, val) :: rest else (k, v) :: dictInsert rest key val

/-- Python `set.add` on a set modelled as a duplicate-free list. -/
def pySetAdd (l : List String) (x : String) : List String :=
  if x ∈ l then l else l ++ [x]

/-- The cryptographic primitives used by `core.py`, abstracted.
`rsaSign sk content` returns `none` when signing raises (the source
swallows the exception); `rsaVerify pk sig content` is the boolean outcome
of `public_key.verify` including base64 decoding. -/
structure CryptoEnv where
  sha256hex : String → String
  rsaSign : String → String → Option String
  rsaVerify : String → String → String → Bool
  genKeyPair : Nat → String × String

/-- The `SecureToken` record of `core.py` (its fields after construction). -/
structure SecureToken where
  node_id : String
  issuer_token_hash : Option String
  issuer_id : Option String
  timestamp : String
  token_id : String
  token_data : String
  token_hash : String
  master_id : Option String
  hierarchy_level : Int
  master_signature : Option String
  issuer_signature : Option String
  delegation_proof : Option String
  merkle_proof : Option String
  verification_paths : List String
deriving DecidableEq

/-- A placeholder token used only as an `Option.getD` default in witnesses. -/
def dummyTok : SecureToken :=
  { node_id := "dummy", issuer_token_hash := none, issuer_id := none,
    timestamp := "", token_id := "", token_data := "", token_hash := "",
    master_id := none, hierarchy_level := 0, master_signature := none,
    issuer_signature := none, delegation_proof := none, merkle_proof := none,
    verification_paths := ["chain"] }

/-- Characters removed by the three `replace` calls in `SecureToken.__init__`. -/
def notSpecialChar (c : Char) : Bool := !(c = '_' || c = '-' || c = '.')

/-- `node_id.replace('_','').replace('-','').replace('.','')` as a character list. -/
def strippedChars (s : String) : List Char := s.data.filter notSpecialChar

/-- Python `str.isalnum` on a character list: non-empty and all alphanumeric. -/
def pyIsAlnumList (l : List Char) : Bool := !l.isEmpty && l.all Char.isAlphanum

/-- The character set the spec allows in identifiers. -/
def allowedChar (c : Char) : Bool := c.isAlphanum || c = '-' || c = '_' || c = '.'

/-- The identifier condition under which `SecureToken.__init__` actually succeeds. -/
def validIdChars (s : String) : Bool :=
  !(s == "") && decide (s.length ≤ 64) && s.data.all allowedChar && s.data.any Char.isAlphanum

/-- `SecureToken.__init__` from `core.py`.  `ts` and `tid` are the
timestamp and uuid drawn from the environment at construction time. -/
def SecureToken.init (env : CryptoEnv) (ts tid node_id : String)
    (issuer_token_hash issuer_id token_data master_id : Option String)
    (hierarchy_level : Int) : Except String SecureToken :=
  if node_id = "" then
    Except.error "Node ID must be a non-empty string"
  else if node_id.length > 64 then
    Except.error "Node ID must be 64 characters or less"
  else if !(pyIsAlnumList (strippedChars node_id)) then
    Except.error "Node ID must contain only alphanumeric characters, hyphens, underscores, and dots"
  else
    let td := pyOrStr token_data ("token_for_" ++ node_id)
    let mid := pyOrOpt master_id (if issuer_token_hash.isNone then some node_id else none)
    let content := node_id ++ ":" ++ pyStrOpt issuer_token_hash ++ ":" ++ pyStrOpt issuer_id
        ++ ":" ++ ts ++ ":" ++ tid ++ ":" ++ td
    Except.ok
      { node_id := node_id, issuer_token_hash := issuer_token_hash, issuer_id := issuer_id,
        timestamp := ts, token_id := tid, token_data := td,
        token_hash := env.sha256hex content, master_id := mid,
        hierarchy_level := hierarchy_level, master_signature := none, issuer_signature := none,
        delegation_proof := none, merkle_proof := none, verification_paths := ["chain"] }

/-- The JSON object written by `to_dict` / accepted by `from_dict`.
For the enhanced fields an outer `none` means the key is absent from the
dict (so `dict.get` falls back to its default). -/
structure TokenRecord where
  node_id : String
  issuer_token_hash : Option String
  issuer_id : Option String
  timestamp : String
  token_id : String
  token_data : String
  token_hash : String
  master_id : Option (Option String)
  hierarchy_level : Option Int
  master_signature : Option (Option String)
  issuer_signature : Option (Option String)
  delegation_proof : Option (Option String)
  merkle_proof : Option (Option String)
  verification_paths : Option (List String)
deriving DecidableEq

/-- `SecureToken.to_dict` from `core.py`. -/
def SecureToken.to_dict (t : SecureToken) : TokenRecord :=
  { node_id := t.node_id, issuer_token_hash := t.issuer_token_hash, issuer_id := t.issuer_id,
    timestamp := t.timestamp, token_id := t.token_id, token_data := t.token_data,
    token_hash := t.token_hash, master_id := some t.master_id,
    hierarchy_level := some t.hierarchy_level, master_signature := some t.master_signature,
    issuer_signature := some t.issuer_signature, delegation_proof := some t.delegation_proof,
    merkle_proof := some t.merkle_proof, verification_paths := some t.verification_paths }

/-- `SecureToken.from_dict` from `core.py`: fields are taken verbatim,
enhanced fields fall back to the documented defaults, and
`set(data.get('verification_paths', ['chain']))` is modelled by `dedup`. -/
def SecureToken.from_dict (d : TokenRecord) : SecureToken :=
  { node_id := d.node_id, issuer_token_hash := d.issuer_token_hash, issuer_id := d.issuer_id,
    timestamp := d.timestamp, token_id := d.token_id, token_data := d.token_data,
    token_hash := d.token_hash,
    master_id := d.master_id.getD (if d.issuer_token_hash.isNone then some d.node_id else none),
    hierarchy_level := d.hierarchy_level.getD 0,
    master_signature := d.master_signature.getD none,
    issuer_signature := d.issuer_signature.getD none,
    delegation_proof := d.delegation_proof.getD none,
    merkle_proof := d.merkle_proof.getD none,
    verification_paths := (d.verification_paths.getD ["chain"]).dedup }

/-- `SecureToken.add_master_signature` from `core.py`. -/
def SecureToken.add_master_signature (env : CryptoEnv) (t : SecureToken)
    (master_private_key : Option String) (master_id : String) : SecureToken :=
  match master_private_key with
  | none => t
  | some sk =>
    let content := t.node_id ++ ":" ++ t.token_hash ++ ":" ++ master_id ++ ":" ++ t.timestamp
    match env.rsaSign sk content with
    | none => t
    | some sig =>
      { t with master_signature := some sig, master_id := some master_id,
               verification_paths := pySetAdd t.verification_paths "master-direct" }

/-- `SecureToken.add_issuer_signature` from `core.py`. -/
def SecureToken.add_issuer_signature (env : CryptoEnv) (t : SecureToken)
    (issuer_private_key : Option String) (issuer_id : String) : SecureToken :=
  if issuer_id = "" then t
  else
    match issuer_private_key with
    | none => t
    | some sk =>
      let content := t.node_id ++ ":" ++ t.token_hash ++ ":" ++ issuer_id ++ ":" ++ t.timestamp
      match env.rsaSign sk content with
      | none => t
      | some sig =>
        { t with issuer_signature := some sig,
                 verification_paths := pySetAdd t.verification_paths "issuer-direct" }

/-- `SecureToken.verify_master_signature` from `core.py`. -/
def SecureToken.verify_master_signature (rsaVerify : String → String → String → Bool)
    (t : SecureToken) (master_public_key : Option String) : Bool :=
  match t.master_signature, master_public_key, t.master_id with
  | some sig, some pk, some mid =>
    if sig = "" || mid = "" then false
    else rsaVerify pk sig (t.node_id ++ ":" ++ t.token_hash ++ ":" ++ mid ++ ":" ++ t.timestamp)
  | _, _, _ => false

/-- The in-memory state of `PKITokenNetwork` (the file-backed storage
directory is out of the modelled fragment; `fresh` supplies the ambient
nondeterminism, see the header comment). -/
structure PKITokenNetwork where
  tokens : List (String × SecureToken)
  master_token : Option SecureToken
  master_private_key : Option String
  master_public_key : Option String
  node_keys : List (String × (String × String))
  fresh : Nat
deriving DecidableEq

/-- A freshly constructed network over an empty storage directory. -/
def emptyNetwork : PKITokenNetwork :=
  { tokens := [], master_token := none, master_private_key := none,
    master_public_key := none, node_keys := [], fresh := 0 }

/-- Timestamp drawn from the freshness supply. -/
def tsOf (n : Nat) : String := "ts" ++ toString n

/-- Token id (uuid4) drawn from the freshness supply. -/
def tidOf (n : Nat) : String := "uuid" ++ toString n

/-- `PKITokenNetwork._ensure_master_keys` from `core.py`. -/
def PKITokenNetwork.ensure_master_keys (env : CryptoEnv) (net : PKITokenNetwork) :
    PKITokenNetwork :=
  if net.master_private_key.isNone || net.master_public_key.isNone then
    let kp := env.genKeyPair net.fresh
    { net with master_private_key := some kp.1, master_public_key := some kp.2,
               fresh := net.fresh + 1 }
  else net

/-- `PKITokenNetwork._ensure_node_keys` from `core.py`. -/
def PKITokenNetwork.ensure_node_keys (env : CryptoEnv) (net : PKITokenNetwork)
    (node_id : String) : PKITokenNetwork :=
  if (dictLookup net.node_keys node_id).isSome then net
  else
    let kp := env.genKeyPair net.fresh
    { net with node_keys := dictInsert net.node_keys node_id kp, fresh := net.fresh + 1 }

/-- `PKITokenNetwork.create_master_token` from `core.py`.  The pair holds
the Python return value (or raised error) and the post-state of `self`;
note that on a construction error the master keys have already been
generated, exactly as in the source. -/
def PKITokenNetwork.create_master_token (env : CryptoEnv) (net : PKITokenNetwork)
    (master_node_id : String) : Except String SecureToken × PKITokenNetwork :=
  match net.master_token with
  | some mt => (Except.error ("Master token already exists for node: " ++ mt.node_id), net)
  | none =>
    if (dictLookup net.tokens master_node_id).isSome then
      (Except.error ("Node " ++ master_node_id ++ " already has a token"), net)
    else
      let net1 := PKITokenNetwork.ensure_master_keys env net
      match SecureToken.init env (tsOf net1.fresh) (tidOf net1.fresh) master_node_id
          none none none (some master_node_id) 0 with
      | Except.error e => (Except.error ("Failed to create master token: " ++ e), net1)
      | Except.ok tok0 =>
        let tok := SecureToken.add_master_signature env tok0 net1.master_private_key
            master_node_id
        (Except.ok tok,
          { net1 with master_token := some tok,
                      tokens := dictInsert net1.tokens master_node_id tok,
                      fresh := net1.fresh + 1 })

/-- `PKITokenNetwork.issue_token` from `core.py`. -/
def PKITokenNetwork.issue_token (env : CryptoEnv) (net : PKITokenNetwork)
    (issuer_node_id new_node_id : String) (token_data : Option String) :
    Except String SecureToken × PKITokenNetwork :=
  match net.master_token with
  | none => (Except.error "No master token exists. Create a master token first.", net)
  | some mt =>
    match dictLookup net.tokens issuer_node_id with
    | none => (Except.error ("Issuer node " ++ issuer_node_id ++ " not found"), net)
    | some issuer_token =>
      if issuer_node_id = new_node_id then
        (Except.error "Issuer and new node cannot be the same", net)
      else if (dictLookup net.tokens new_node_id).isSome then
        (Except.error ("Node " ++ new_node_id ++ " already has a token"), net)
      else
        match SecureToken.init env (tsOf net.fresh) (tidOf net.fresh) new_node_id
            (some issuer_token.token_hash) (some issuer_node_id) token_data
            (some mt.node_id) (issuer_token.hierarchy_level + 1) with
        | Except.error e => (Except.error ("Failed to issue token: " ++ e), net)
        | Except.ok tok0 =>
          let tok1 := SecureToken.add_master_signature env tok0 net.master_private_key
              mt.node_id
          let net1 := PKITokenNetwork.ensure_node_keys env { net with fresh := net.fresh + 1 }
              issuer_node_id
          let tok2 := match dictLookup net1.node_keys issuer_node_id with
            | some kp => SecureToken.add_issuer_signature env tok1 (some kp.1) issuer_node_id
            | none => tok1
          let net2 := PKITokenNetwork.ensure_node_keys env net1 new_node_id
          (Except.ok tok2, { net2 with tokens := dictInsert net2.tokens new_node_id tok2 })

/-- Python `self.tokens[o]` lookup where the key is an `Optional[str]`:
`None` is never a key of the store. -/
def pyLookupOpt (tokens : List (String × SecureToken)) (o : Option String) :
    Option SecureToken :=
  match o with
  | none => none
  | some i => dictLookup tokens i

/-- The `while` loop of `PKITokenNetwork.verify_token`, with explicit fuel;
`none` means the loop has not terminated within `fuel` iterations (the
source would still be running). -/
def PKITokenNetwork.verifyTokenGo (net : PKITokenNetwork) :
    Nat → SecureToken → List String → Option (Bool × List String)
  | 0, _, _ => none
  | Nat.succ fuel, t, chain =>
    let chain2 := chain ++ [t.node_id ++ " -> " ++ t.token_hash.take 16 ++ "..."]
    match t.issuer_token_hash with
    | none =>
      if net.master_token = some t then some (true, chain2)
      else some (false, chain2 ++ ["Invalid master token"])
    | some h =>
      match pyLookupOpt net.tokens t.issuer_id with
      | none => some (false, chain2 ++ ["Issuer " ++ pyStrOpt t.issuer_id ++ " not found"])
      | some issuer_token =>
        if issuer_token.token_hash ≠ h then
          some (false, chain2 ++ ["Hash chain broken - issuer token hash mismatch"])
        else PKITokenNetwork.verifyTokenGo net fuel issuer_token chain2

/-- `PKITokenNetwork.verify_token` from `core.py` (chain verification). -/
def PKITokenNetwork.verify_token (net : PKITokenNetwork) (fuel : Nat) (node_id : String) :
    Option (Bool × List String) :=
  match dictLookup net.tokens node_id with
  | none => some (false, ["Token for node " ++ node_id ++ " not found"])
  | some t => PKITokenNetwork.verifyTokenGo net fuel t []

/-- `PKITokenNetwork.verify_token_direct_master` from `core.py`. -/
def PKITokenNetwork.verify_token_direct_master (rsaVerify : String → String → String → Bool)
    (net : PKITokenNetwork) (node_id : String) : Bool × List String :=
  match dictLookup net.tokens node_id with
  | none => (false, ["Token for node " ++ node_id ++ " not found"])
  | some token =>
    if "master-direct" ∈ token.verification_paths then
      if net.master_public_key.isNone then (false, ["Master public key not available"])
      else if SecureToken.verify_master_signature rsaVerify token net.master_public_key then
        (true, ["Master signature verified for " ++ node_id])
      else (false, ["Master signature verification failed"])
    else (false, ["Master signature verification not available for this token"])

/-- One iteration of the `_load_tokens` loop: deserialize a record, store
it under its own `node_id`, and re-register the master when the record is
root-shaped. -/
def loadTokenStep (net : PKITokenNetwork) (d : TokenRecord) : PKITokenNetwork :=
  let token := SecureToken.from_dict d
  { net with tokens := dictInsert net.tokens token.node_id token,
             master_token := if token.issuer_token_hash.isNone then some token
                             else net.master_token }

/-- `PKITokenNetwork._load_tokens` from `core.py`, over the successfully
parsed records in directory iteration order. -/
def PKITokenNetwork.load_tokens (net : PKITokenNetwork) (records : List TokenRecord) :
    PKITokenNetwork :=
  records.foldl loadTokenStep net

/-- Membership of a token in the store (it is the value of some key). -/
def InStore (net : PKITokenNetwork) (t : SecureToken) : Prop :=
  ∃ k, dictLookup net.tokens k = some t

/-- The issuer links of the store form a tree: some rank strictly
decreases along every resolvable issuer link. -/
def MeasureOK (net : PKITokenNetwork) (m : SecureToken → Nat) : Prop :=
  ∀ t t', InStore net t → pyLookupOpt net.tokens t.issuer_id = some t' → m t' < m t

/-- Following issuer links from `t` reaches the registered root in `k`
tokens, with every issuer present and every hash-chain link exact. -/
inductive ChainToRoot (net : PKITokenNetwork) : SecureToken → Nat → Prop where
  | root {t : SecureToken} :
      t.issuer_token_hash = none → net.master_token = some t → ChainToRoot net t 1
  | step {t t' : SecureToken} {h : String} {k : Nat} :
      t.issuer_token_hash = some h →
      pyLookupOpt net.tokens t.issuer_id = some t' →
      t'.token_hash = h →
      ChainToRoot net t' k → ChainToRoot net t (k + 1)

/-- `u` is reachable from `t` by zero or more exact, resolvable issuer steps. -/
inductive ReachesVia (net : PKITokenNetwork) : SecureToken → SecureToken → Prop where
  | refl (t : SecureToken) : ReachesVia net t t
  | step {t t' u : SecureToken} {h : String} :
      t.issuer_token_hash = some h →
      pyLookupOpt net.tokens t.issuer_id = some t' →
      t'.token_hash = h →
      ReachesVia net t' u → ReachesVia net t u

/-- The walk from `t` runs into a missing issuer. -/
def FailsMissingIssuer (net : PKITokenNetwork) (t0 : SecureToken) : Prop :=
  ∃ u h, ReachesVia net t0 u ∧ u.issuer_token_hash = some h ∧
    pyLookupOpt net.tokens u.issuer_id = none

/-- The walk from `t` runs into a hash-chain mismatch. -/
def FailsHashMismatch (net : PKITokenNetwork) (t0 : SecureToken) : Prop :=
  ∃ u h u', ReachesVia net t0 u ∧ u.issuer_token_hash = some h ∧
    pyLookupOpt net.tokens u.issuer_id = some u' ∧ u'.token_hash ≠ h

/-- The walk from `t` reaches a root-shaped token that is not the
registered root. -/
def FailsInvalidRoot (net : PKITokenNetwork) (t0 : SecureToken) : Prop :=
  ∃ u, ReachesVia net t0 u ∧ u.issuer_token_hash = none ∧ net.master_token ≠ some u

/-- A concrete environment for witnesses: the hash is the content itself,
signing always succeeds and tags its inputs, verification recomputes the
tag. -/
def envEx : CryptoEnv :=
  { sha256hex := fun s => "H(" ++ s ++ ")",
    rsaSign := fun sk c => some ("SIG:" ++ sk ++ ":" ++ c),
    rsaVerify := fun pk sig c => sig == "SIG:sk" ++ pk.drop 2 ++ ":" ++ c,
    genKeyPair := fun n => ("sk" ++ toString n, "pk" ++ toString n) }

/-- A verifier that rejects everything (a corrupted-signature scenario). -/
def rvFalse : String → String → String → Bool := fun _ _ _ => false

/-- A literal root token for witness states. -/
def tokL : SecureToken :=
  { node_id := "root", issuer_token_hash := none, issuer_id := none,
    timestamp := "t0", token_id := "u0", token_data := "d0", token_hash := "h0",
    master_id := some "root", hierarchy_level := 0, master_signature := none,
    issuer_signature := none, delegation_proof := none, merkle_proof := none,
    verification_paths := ["chain"] }

/-- A witness store holding exactly the root `tokL`. -/
def netL : PKITokenNetwork :=
  { tokens := [("root", tokL)], master_token := some tokL, master_private_key := none,
    master_public_key := none, node_keys := [], fresh := 0 }

/-- The result of issuing a token for `"alice"` from `netL`'s root. -/
def issueResL : Except String SecureToken × PKITokenNetwork :=
  PKITokenNetwork.issue_token envEx netL "root" "alice" none

/-- The token issued to `"alice"` in `issueResL`. -/
def tokA : SecureToken := issueResL.1.toOption.getD dummyTok

/-- The post-state of `issueResL`. -/
def netA : PKITokenNetwork := issueResL.2

/-- A token carrying a master signature that does not verify. -/
def tokMD : SecureToken :=
  { node_id := "n", issuer_token_hash := some "h-root", issuer_id := some "root",
    timestamp := "t1", token_id := "u1", token_data := "d1", token_hash := "h1",
    master_id := some "root", hierarchy_level := 1, master_signature := some "garbage",
    issuer_signature := none, delegation_proof := none, merkle_proof := none,
    verification_paths := ["chain", "master-direct"] }

/-- A store holding only `tokMD` and a master public key. -/
def netMD : PKITokenNetwork :=
  { tokens := [("n", tokMD)], master_token := none, master_private_key := none,
    master_public_key := some "pk0", node_keys := [], fresh := 0 }

/-- A root-shaped persisted record named `"a"`. -/
def recA : TokenRecord :=
  { node_id := "a", issuer_token_hash := none, issuer_id := none, timestamp := "ta",
    token_id := "ua", token_data := "da", token_hash := "ha", master_id := none,
    hierarchy_level := none, master_signature := none, issuer_signature := none,
    delegation_proof := none, merkle_proof := none, verification_paths := none }

/-- A second root-shaped persisted record named `"b"`. -/
def recB : TokenRecord :=
  { node_id := "b", issuer_token_hash := none, issuer_id := none, timestamp := "tb",
    token_id := "ub", token_data := "db", token_hash := "hb", master_id := none,
    hierarchy_level := none, master_signature := none, issuer_signature := none,
    delegation_proof := none, merkle_proof := none, verification_paths := none }

/-- A persisted record whose `verification_paths` list omits `"chain"`. -/
def recNoChain : TokenRecord :=
  { node_id := "c", issuer_token_hash := some "hx", issuer_id := some "a", timestamp := "tc",
    token_id := "uc", token_data := "dc", token_hash := "hc", master_id := some (some "a"),
    hierarchy_level := some 1, master_signature := some (some "s"), issuer_signature := none,
    delegation_proof := none, merkle_proof := none,
    verification_paths := some ["master-direct"] }

/-- The token produced by the success path of `issue_token`, given the
issuer-constructed token `tok0` and the master's node id. -/
def issuedTok (env : CryptoEnv) (net : PKITokenNetwork) (i : String) (tok0 : SecureToken)
    (mtName : String) : SecureToken :=
  let tok1 := SecureToken.add_master_signature env tok0 net.master_private_key mtName
  let net1 := PKITokenNetwork.ensure_node_keys env { net with fresh := net.fresh + 1 } i
  match dictLookup net1.node_keys i with
  | some kp => SecureToken.add_issuer_signature env tok1 (some kp.1) i
  | none => tok1

/-- The post-state produced by the success path of `issue_token`. -/
def issuedNet (env : CryptoEnv) (net : PKITokenNetwork) (i n : String) (tok0 : SecureToken)
    (mtName : String) : PKITokenNetwork :=
  let net1 := PKITokenNetwork.ensure_node_keys env { net with fresh := net.fresh + 1 } i
  let net2 := PKITokenNetwork.ensure_node_keys env net1 n
  { net2 with tokens := dictInsert net2.tokens n (issuedTok env net i tok0 mtName) }

/-! ### Helper lemmas -/

theorem dictLookup_dictInsert_self {α : Type} (l : List (String × α)) (k : String) (v : α) :
    dictLookup (dictInsert l k v) k = some v := by
  induction l with
  | nil => simp [dictInsert, dictLookup]
  | cons p rest ih =>
    obtain ⟨k', v'⟩ := p
    by_cases hk : k = k'
    · subst hk; simp [dictInsert, dictLookup]
    · simp [dictInsert, dictLookup, hk, ih]

theorem dictLookup_dictInsert_ne {α : Type} (l : List (String × α)) (k k' : String) (v : α)
    (h : k' ≠ k) : dictLookup (dictInsert l k v) k' = dictLookup l k' := by
  induction l with
  | nil => simp [dictInsert, dictLookup, h]
  | cons p rest ih =>
    obtain ⟨a, b⟩ := p
    by_cases hk : k = a
    · subst hk; simp [dictInsert, dictLookup, h]
    · by_cases hk' : k' = a
      · subst hk'; simp [dictInsert, dictLookup, hk]
      · simp [dictInsert, dictLookup, hk, hk', ih]

theorem getLast?_cons_of_ne_nil {α : Type} (a : α) (l : List α) (h : l ≠ []) :
    (a :: l).getLast? = l.getLast? := by
  cases l with
  | nil => exact absurd rfl h
  | cons b m => exact List.getLast?_cons_cons

theorem allowedChar_of_not_notSpecial (c : Char) (h : notSpecialChar c = false) :
    allowedChar c = true := by
  by_cases h1 : c = '_'
  · subst h1; decide
  by_cases h2 : c = '-'
  · subst h2; decide
  by_cases h3 : c = '.'
  · subst h3; decide
  exfalso
  simp [notSpecialChar, h1, h2, h3] at h

theorem notSpecialChar_of_alnum (c : Char) (h : Char.isAlphanum c = true) :
    notSpecialChar c = true := by
  by_cases h1 : c = '_'
  · subst h1; exact absurd h (by decide)
  by_cases h2 : c = '-'
  · subst h2; exact absurd h (by decide)
  by_cases h3 : c = '.'
  · subst h3; exact absurd h (by decide)
  simp [notSpecialChar, h1, h2, h3]

theorem alnum_of_allowed_notSpecial (c : Char) (ha : allowedChar c = true)
    (hn : notSpecialChar c = true) : Char.isAlphanum c = true := by
  by_cases h1 : c = '_'
  · subst h1; exact absurd hn (by decide)
  by_cases h2 : c = '-'
  · subst h2; exact absurd hn (by decide)
  by_cases h3 : c = '.'
  · subst h3; exact absurd hn (by decide)
  simpa [allowedChar, h1, h2, h3] using ha

theorem pyIsAlnumList_iff (l : List Char) :
    pyIsAlnumList l = true ↔ (l ≠ [] ∧ ∀ c ∈ l, Char.isAlphanum c = true) := by
  simp [pyIsAlnumList, List.all_eq_true, List.isEmpty_iff]

theorem pyIsAlnum_filter_iff (l : List Char) :
    pyIsAlnumList (l.filter notSpecialChar) = true ↔
      ((∀ c ∈ l, allowedChar c = true) ∧ ∃ c ∈ l, Char.isAlphanum c = true) := by
  rw [pyIsAlnumList_iff]
  constructor
  · rintro ⟨hne, hall⟩
    refine ⟨?_, ?_⟩
    · intro c hc
      by_cases hns : notSpecialChar c = true
      · have hA := hall c (List.mem_filter.mpr ⟨hc, hns⟩)
        simp [allowedChar, hA]
      · exact allowedChar_of_not_notSpecial c (Bool.eq_false_iff.mpr hns)
    · obtain ⟨c, hc⟩ := List.exists_mem_of_ne_nil _ hne
      obtain ⟨hcl, _⟩ := List.mem_filter.mp hc
      exact ⟨c, hcl, hall c hc⟩
  · rintro ⟨hall, c, hcl, hca⟩
    refine ⟨?_, ?_⟩
    · intro hnil
      have hmem : c ∈ l.filter notSpecialChar :=
        List.mem_filter.mpr ⟨hcl, notSpecialChar_of_alnum c hca⟩
      rw [hnil] at hmem
      exact absurd hmem (List.not_mem_nil c)
    · intro x hx
      obtain ⟨hxl, hxns⟩ := List.mem_filter.mp hx
      exact alnum_of_allowed_notSpecial x (hall x hxl) hxns

theorem init_ok_iff (env : CryptoEnv) (ts tid nid : String)
    (ith iid td mid : Option String) (hl : Int) :
    (∃ t, SecureToken.init env ts tid nid ith iid td mid hl = Except.ok t) ↔
      (nid ≠ "" ∧ nid.length ≤ 64 ∧ (∀ c ∈ nid.data, allowedChar c = true) ∧
        ∃ c ∈ nid.data, Char.isAlphanum c = true) := by
  constructor
  · rintro ⟨t, ht⟩
    unfold SecureToken.init at ht
    by_cases h1 : nid = ""
    · rw [if_pos h1] at ht; exact absurd ht (by simp)
    rw [if_neg h1] at ht
    by_cases h2 : nid.length > 64
    · rw [if_pos h2] at ht; exact absurd ht (by simp)
    rw [if_neg h2] at ht
    by_cases h3 : pyIsAlnumList (strippedChars nid) = true
    · have hc := (pyIsAlnum_filter_iff nid.data).mp (by rwa [strippedChars] at h3)
      exact ⟨h1, by omega, hc.1, hc.2⟩
    · rw [if_pos (by simp [Bool.eq_false_iff.mpr h3])] at ht
      exact absurd ht (by simp)
  · rintro ⟨h1, h2, hall, hany⟩
    unfold SecureToken.init
    have h3 : pyIsAlnumList (strippedChars nid) = true := by
      rw [strippedChars]; exact (pyIsAlnum_filter_iff nid.data).mpr ⟨hall, hany⟩
    rw [if_neg h1, if_neg (by omega : ¬nid.length > 64), if_neg (by simp [h3])]
    exact ⟨_, rfl⟩

theorem init_ok_fields (env : CryptoEnv) (ts tid nid : String)
    (ith iid td mid : Option String) (hl : Int) (t : SecureToken)
    (h : SecureToken.init env ts tid nid ith iid td mid hl = Except.ok t) :
    t.node_id = nid ∧ t.issuer_token_hash = ith ∧ t.issuer_id = iid ∧ t.timestamp = ts ∧
    t.hierarchy_level = hl ∧
    t.master_id = pyOrOpt mid (if ith.isNone then some nid else none) ∧
    t.master_signature = none ∧ t.issuer_signature = none ∧
    t.verification_paths = ["chain"] := by
  unfold SecureToken.init at h
  split_ifs at h with h1 h2 h3 h4
  · cases h
    exact ⟨rfl, rfl, rfl, rfl, rfl, by rw [if_pos h4], rfl, rfl, rfl⟩
  · cases h
    exact ⟨rfl, rfl, rfl, rfl, rfl, by rw [if_neg h4], rfl, rfl, rfl⟩

theorem mem_pySetAdd (l : List String) (x p : String) :
    p ∈ pySetAdd l x ↔ (p ∈ l ∨ p = x) := by
  unfold pySetAdd
  split_ifs with h
  · constructor
    · exact fun hp => Or.inl hp
    · rintro (hp | rfl)
      · exact hp
      · exact h
  · simp [List.mem_append]

theorem add_master_signature_cases (env : CryptoEnv) (t : SecureToken)
    (k : Option String) (mid : String) :
    SecureToken.add_master_signature env t k mid = t ∨
    (∃ sk sig, k = some sk ∧
      env.rsaSign sk (t.node_id ++ ":" ++ t.token_hash ++ ":" ++ mid ++ ":" ++ t.timestamp)
        = some sig ∧
      SecureToken.add_master_signature env t k mid =
        { t with master_signature := some sig, master_id := some mid,
                 verification_paths := pySetAdd t.verification_paths "master-direct" }) := by
  rcases k with _ | sk
  · exact Or.inl rfl
  · rcases hs : env.rsaSign sk
        (t.node_id ++ ":" ++ t.token_hash ++ ":" ++ mid ++ ":" ++ t.timestamp) with _ | sig
    · refine Or.inl ?_
      simp [SecureToken.add_master_signature, hs]
    · refine Or.inr ⟨sk, sig, rfl, hs, ?_⟩
      simp [SecureToken.add_master_signature, hs]

theorem add_issuer_signature_cases (env : CryptoEnv) (t : SecureToken)
    (k : Option String) (iid : String) :
    SecureToken.add_issuer_signature env t k iid = t ∨
    (∃ sk sig, iid ≠ "" ∧ k = some sk ∧
      env.rsaSign sk (t.node_id ++ ":" ++ t.token_hash ++ ":" ++ iid ++ ":" ++ t.timestamp)
        = some sig ∧
      SecureToken.add_issuer_signature env t k iid =
        { t with issuer_signature := some sig,
                 verification_paths := pySetAdd t.verification_paths "issuer-direct" }) := by
  by_cases h0 : iid = ""
  · refine Or.inl ?_
    simp [SecureToken.add_issuer_signature, h0]
  rcases k with _ | sk
  · refine Or.inl ?_
    simp [SecureToken.add_issuer_signature, h0]
  rcases hs : env.rsaSign sk
      (t.node_id ++ ":" ++ t.token_hash ++ ":" ++ iid ++ ":" ++ t.timestamp) with _ | sig
  · refine Or.inl ?_
    simp [SecureToken.add_issuer_signature, h0, hs]
  · refine Or.inr ⟨sk, sig, h0, rfl, hs, ?_⟩
    simp [SecureToken.add_issuer_signature, h0, hs]

theorem add_master_signature_frame (env : CryptoEnv) (t : SecureToken)
    (k : Option String) (mid : String) :
    (SecureToken.add_master_signature env t k mid).node_id = t.node_id ∧
    (SecureToken.add_master_signature env t k mid).issuer_token_hash = t.issuer_token_hash ∧
    (SecureToken.add_master_signature env t k mid).issuer_id = t.issuer_id ∧
    (SecureToken.add_master_signature env t k mid).timestamp = t.timestamp ∧
    (SecureToken.add_master_signature env t k mid).token_hash = t.token_hash ∧
    (SecureToken.add_master_signature env t k mid).hierarchy_level = t.hierarchy_level := by
  rcases add_master_signature_cases env t k mid with h | ⟨sk, sig, _, _, h⟩ <;>
    rw [h] <;> exact ⟨rfl, rfl, rfl, rfl, rfl, rfl⟩

theorem add_issuer_signature_frame (env : CryptoEnv) (t : SecureToken)
    (k : Option String) (iid : String) :
    (SecureToken.add_issuer_signature env t k iid).node_id = t.node_id ∧
    (SecureToken.add_issuer_signature env t k iid).issuer_token_hash = t.issuer_token_hash ∧
    (SecureToken.add_issuer_signature env t k iid).issuer_id = t.issuer_id ∧
    (SecureToken.add_issuer_signature env t k iid).timestamp = t.timestamp ∧
    (SecureToken.add_issuer_signature env t k iid).token_hash = t.token_hash ∧
    (SecureToken.add_issuer_signature env t k iid).hierarchy_level = t.hierarchy_level ∧
    (SecureToken.add_issuer_signature env t k iid).master_id = t.master_id := by
  rcases add_issuer_signature_cases env t k iid with h | ⟨sk, sig, _, _, _, h⟩ <;>
    rw [h] <;> exact ⟨rfl, rfl, rfl, rfl, rfl, rfl, rfl⟩

theorem ensure_node_keys_frame (env : CryptoEnv) (net : PKITokenNetwork) (x : String) :
    (PKITokenNetwork.ensure_node_keys env net x).tokens = net.tokens ∧
    (PKITokenNetwork.ensure_node_keys env net x).master_token = net.master_token ∧
    (PKITokenNetwork.ensure_node_keys env net x).master_private_key = net.master_private_key ∧
    (PKITokenNetwork.ensure_node_keys env net x).master_public_key = net.master_public_key := by
  unfold PKITokenNetwork.ensure_node_keys
  split_ifs <;> exact ⟨rfl, rfl, rfl, rfl⟩

theorem ensure_node_keys_isSome (env : CryptoEnv) (net : PKITokenNetwork) (x : String) :
    (dictLookup (PKITokenNetwork.ensure_node_keys env net x).node_keys x).isSome = true := by
  unfold PKITokenNetwork.ensure_node_keys
  split_ifs with h
  · exact h
  · rw [dictLookup_dictInsert_self]
    rfl

theorem ensure_node_keys_other (env : CryptoEnv) (net : PKITokenNetwork) (x k : String)
    (hk : k ≠ x) :
    dictLookup (PKITokenNetwork.ensure_node_keys env net x).node_keys k =
      dictLookup net.node_keys k := by
  unfold PKITokenNetwork.ensure_node_keys
  split_ifs with h
  · rfl
  · exact dictLookup_dictInsert_ne net.node_keys x k (env.genKeyPair net.fresh) hk

theorem ensure_node_keys_keeps (env : CryptoEnv) (net : PKITokenNetwork) (x : String)
    (kp : String × String) (h : dictLookup net.node_keys x = some kp) :
    dictLookup (PKITokenNetwork.ensure_node_keys env net x).node_keys x = some kp := by
  unfold PKITokenNetwork.ensure_node_keys
  rw [if_pos (by rw [h]; rfl)]
  exact h

theorem ensure_master_keys_frame (env : CryptoEnv) (net : PKITokenNetwork) :
    (PKITokenNetwork.ensure_master_keys env net).tokens = net.tokens ∧
    (PKITokenNetwork.ensure_master_keys env net).master_token = net.master_token ∧
    (PKITokenNetwork.ensure_master_keys env net).node_keys = net.node_keys := by
  unfold PKITokenNetwork.ensure_master_keys
  split_ifs <;> exact ⟨rfl, rfl, rfl⟩

theorem issue_token_no_master (env : CryptoEnv) (net : PKITokenNetwork)
    (i n : String) (d : Option String) (hmt : net.master_token = none) :
    PKITokenNetwork.issue_token env net i n d =
      (Except.error "No master token exists. Create a master token first.", net) := by
  simp only [PKITokenNetwork.issue_token, hmt]

theorem issue_token_no_issuer (env : CryptoEnv) (net : PKITokenNetwork)
    (i n : String) (d : Option String) (mt : SecureToken)
    (hmt : net.master_token = some mt) (hlt : dictLookup net.tokens i = none) :
    PKITokenNetwork.issue_token env net i n d =
      (Except.error ("Issuer node " ++ i ++ " not found"), net) := by
  simp only [PKITokenNetwork.issue_token, hmt, hlt]

theorem issue_token_self (env : CryptoEnv) (net : PKITokenNetwork)
    (i n : String) (d : Option String) (mt issuer_token : SecureToken)
    (hmt : net.master_token = some mt) (hlt : dictLookup net.tokens i = some issuer_token)
    (hself : i = n) :
    PKITokenNetwork.issue_token env net i n d =
      (Except.error "Issuer and new node cannot be the same", net) := by
  simp only [PKITokenNetwork.issue_token, hmt, hlt, if_pos hself]

theorem issue_token_dup (env : CryptoEnv) (net : PKITokenNetwork)
    (i n : String) (d : Option String) (mt issuer_token : SecureToken)
    (hmt : net.master_token = some mt) (hlt : dictLookup net.tokens i = some issuer_token)
    (hself : i ≠ n) (hdup : (dictLookup net.tokens n).isSome = true) :
    PKITokenNetwork.issue_token env net i n d =
      (Except.error ("Node " ++ n ++ " already has a token"), net) := by
  simp only [PKITokenNetwork.issue_token, hmt, hlt, if_neg hself, if_pos hdup]

theorem issue_token_bad_id (env : CryptoEnv) (net : PKITokenNetwork)
    (i n : String) (d : Option String) (mt issuer_token : SecureToken) (e : String)
    (hmt : net.master_token = some mt) (hlt : dictLookup net.tokens i = some issuer_token)
    (hself : i ≠ n) (hdup : dictLookup net.tokens n = none)
    (hinit : SecureToken.init env (tsOf net.fresh) (tidOf net.fresh) n
      (some issuer_token.token_hash) (some i) d (some mt.node_id)
      (issuer_token.hierarchy_level + 1) = Except.error e) :
    PKITokenNetwork.issue_token env net i n d =
      (Except.error ("Failed to issue token: " ++ e), net) := by
  simp only [PKITokenNetwork.issue_token, hmt, hlt, if_neg hself, hdup, Option.isSome_none,
    Bool.false_eq_true, if_false, hinit]

theorem issue_token_ok_eq (env : CryptoEnv) (net : PKITokenNetwork)
    (i n : String) (d : Option String) (mt issuer_token tok0 : SecureToken)
    (hmt : net.master_token = some mt) (hlt : dictLookup net.tokens i = some issuer_token)
    (hself : i ≠ n) (hdup : dictLookup net.tokens n = none)
    (hinit : SecureToken.init env (tsOf net.fresh) (tidOf net.fresh) n
      (some issuer_token.token_hash) (some i) d (some mt.node_id)
      (issuer_token.hierarchy_level + 1) = Except.ok tok0) :
    PKITokenNetwork.issue_token env net i n d =
      (Except.ok (issuedTok env net i tok0 mt.node_id),
        issuedNet env net i n tok0 mt.node_id) := by
  simp only [PKITokenNetwork.issue_token, hmt, hlt, if_neg hself, hdup, Option.isSome_none,
    Bool.false_eq_true, if_false, hinit, issuedTok, issuedNet]

theorem issue_token_ok_inv (env : CryptoEnv) (net : PKITokenNetwork)
    (i n : String) (d : Option String) (tok : SecureToken) (net' : PKITokenNetwork)
    (h : PKITokenNetwork.issue_token env net i n d = (Except.ok tok, net')) :
    ∃ mt issuer_token tok0,
      net.master_token = some mt ∧
      dictLookup net.tokens i = some issuer_token ∧
      i ≠ n ∧ dictLookup net.tokens n = none ∧
      SecureToken.init env (tsOf net.fresh) (tidOf net.fresh) n
        (some issuer_token.token_hash) (some i) d (some mt.node_id)
        (issuer_token.hierarchy_level + 1) = Except.ok tok0 ∧
      tok = issuedTok env net i tok0 mt.node_id ∧
      net' = issuedNet env net i n tok0 mt.node_id := by
  cases hmt : net.master_token with
  | none => rw [issue_token_no_master env net i n d hmt] at h; simp at h
  | some mt =>
    cases hlt : dictLookup net.tokens i with
    | none => rw [issue_token_no_issuer env net i n d mt hmt hlt] at h; simp at h
    | some issuer_token =>
      by_cases hself : i = n
      · rw [issue_token_self env net i n d mt issuer_token hmt hlt hself] at h; simp at h
      · cases hdup : dictLookup net.tokens n with
        | some t' =>
          rw [issue_token_dup env net i n d mt issuer_token hmt hlt hself (by rw [hdup]; rfl)]
            at h
          simp at h
        | none =>
          cases hinit : SecureToken.init env (tsOf net.fresh) (tidOf net.fresh) n
              (some issuer_token.token_hash) (some i) d (some mt.node_id)
              (issuer_token.hierarchy_level + 1) with
          | error e =>
            rw [issue_token_bad_id env net i n d mt issuer_token e hmt hlt hself hdup hinit]
              at h
            simp at h
          | ok tok0 =>
            rw [issue_token_ok_eq env net i n d mt issuer_token tok0 hmt hlt hself hdup hinit]
              at h
            injection h with h1 h2
            injection h1 with h1
            exact ⟨mt, issuer_token, tok0, rfl, rfl, hself, rfl, hinit, h1.symm, h2.symm⟩

theorem issuedNet_tokens (env : CryptoEnv) (net : PKITokenNetwork) (i n : String)
    (tok0 : SecureToken) (mtName : String) :
    (issuedNet env net i n tok0 mtName).tokens =
      dictInsert net.tokens n (issuedTok env net i tok0 mtName) := by
  simp only [issuedNet]
  rw [(ensure_node_keys_frame env _ n).1, (ensure_node_keys_frame env _ i).1]

theorem issuedNet_master (env : CryptoEnv) (net : PKITokenNetwork) (i n : String)
    (tok0 : SecureToken) (mtName : String) :
    (issuedNet env net i n tok0 mtName).master_token = net.master_token := by
  simp only [issuedNet]
  rw [(ensure_node_keys_frame env _ n).2.1, (ensure_node_keys_frame env _ i).2.1]

theorem create_master_dup_master (env : CryptoEnv) (net : PKITokenNetwork) (m : String)
    (mt : SecureToken) (hmt : net.master_token = some mt) :
    PKITokenNetwork.create_master_token env net m =
      (Except.error ("Master token already exists for node: " ++ mt.node_id), net) := by
  simp only [PKITokenNetwork.create_master_token, hmt]

theorem create_master_dup_node (env : CryptoEnv) (net : PKITokenNetwork) (m : String)
    (hmt : net.master_token = none) (hdup : (dictLookup net.tokens m).isSome = true) :
    PKITokenNetwork.create_master_token env net m =
      (Except.error ("Node " ++ m ++ " already has a token"), net) := by
  simp only [PKITokenNetwork.create_master_token, hmt, if_pos hdup]

theorem create_master_bad_id (env : CryptoEnv) (net : PKITokenNetwork) (m e : String)
    (hmt : net.master_token = none) (hdup : dictLookup net.tokens m = none)
    (hinit : SecureToken.init env (tsOf (PKITokenNetwork.ensure_master_keys env net).fresh)
      (tidOf (PKITokenNetwork.ensure_master_keys env net).fresh) m none none none (some m) 0 =
      Except.error e) :
    PKITokenNetwork.create_master_token env net m =
      (Except.error ("Failed to create master token: " ++ e),
        PKITokenNetwork.ensure_master_keys env net) := by
  simp only [PKITokenNetwork.create_master_token, hmt, hdup, Option.isSome_none,
    Bool.false_eq_true, if_false, hinit]

theorem create_master_ok_eq (env : CryptoEnv) (net : PKITokenNetwork) (m : String)
    (tok0 : SecureToken)
    (hmt : net.master_token = none) (hdup : dictLookup net.tokens m = none)
    (hinit : SecureToken.init env (tsOf (PKITokenNetwork.ensure_master_keys env net).fresh)
      (tidOf (PKITokenNetwork.ensure_master_keys env net).fresh) m none none none (some m) 0 =
      Except.ok tok0) :
    PKITokenNetwork.create_master_token env net m =
      (Except.ok (SecureToken.add_master_signature env tok0
          (PKITokenNetwork.ensure_master_keys env net).master_private_key m),
        { PKITokenNetwork.ensure_master_keys env net with
            master_token := some (SecureToken.add_master_signature env tok0
              (PKITokenNetwork.ensure_master_keys env net).master_private_key m),
            tokens := dictInsert (PKITokenNetwork.ensure_master_keys env net).tokens m
              (SecureToken.add_master_signature env tok0
                (PKITokenNetwork.ensure_master_keys env net).master_private_key m),
            fresh := (PKITokenNetwork.ensure_master_keys env net).fresh + 1 }) := by
  simp only [PKITokenNetwork.create_master_token, hmt, hdup, Option.isSome_none,
    Bool.false_eq_true, if_false, hinit]

theorem create_master_ok_inv (env : CryptoEnv) (net : PKITokenNetwork) (m : String)
    (tok : SecureToken) (net' : PKITokenNetwork)
    (h : PKITokenNetwork.create_master_token env net m = (Except.ok tok, net')) :
    ∃ tok0,
      net.master_token = none ∧ dictLookup net.tokens m = none ∧
      SecureToken.init env (tsOf (PKITokenNetwork.ensure_master_keys env net).fresh)
        (tidOf (PKITokenNetwork.ensure_master_keys env net).fresh) m none none none (some m) 0 =
        Except.ok tok0 ∧
      tok = SecureToken.add_master_signature env tok0
        (PKITokenNetwork.ensure_master_keys env net).master_private_key m ∧
      net' = { PKITokenNetwork.ensure_master_keys env net with
                 master_token := some tok,
                 tokens := dictInsert (PKITokenNetwork.ensure_master_keys env net).tokens m tok,
                 fresh := (PKITokenNetwork.ensure_master_keys env net).fresh + 1 } := by
  cases hmt : net.master_token with
  | some mt => rw [create_master_dup_master env net m mt hmt] at h; simp at h
  | none =>
    cases hdup : dictLookup net.tokens m with
    | some t' =>
      rw [create_master_dup_node env net m hmt (by rw [hdup]; rfl)] at h
      simp at h
    | none =>
      cases hinit : SecureToken.init env
          (tsOf (PKITokenNetwork.ensure_master_keys env net).fresh)
          (tidOf (PKITokenNetwork.ensure_master_keys env net).fresh) m none none none
          (some m) 0 with
      | error e => rw [create_master_bad_id env net m e hmt hdup hinit] at h; simp at h
      | ok tok0 =>
        rw [create_master_ok_eq env net m tok0 hmt hdup hinit] at h
        injection h with h1 h2
        injection h1 with h1
        subst h1
        exact ⟨tok0, rfl, rfl, rfl, rfl, h2.symm⟩

theorem reachesVia_of_root (net : PKITokenNetwork) (t u : SecureToken)
    (h0 : t.issuer_token_hash = none) (h : ReachesVia net t u) : u = t := by
  cases h with
  | refl => rfl
  | step ha hb hc hrest => simp_all

theorem reachesVia_of_missing (net : PKITokenNetwork) (t u : SecureToken)
    (h2 : pyLookupOpt net.tokens t.issuer_id = none) (h : ReachesVia net t u) : u = t := by
  cases h with
  | refl => rfl
  | step ha hb hc hrest => simp_all

theorem reachesVia_of_mismatch (net : PKITokenNetwork) (t u t' : SecureToken) (h : String)
    (h1 : t.issuer_token_hash = some h) (h2 : pyLookupOpt net.tokens t.issuer_id = some t')
    (h3 : t'.token_hash ≠ h) (hr : ReachesVia net t u) : u = t := by
  cases hr with
  | refl => rfl
  | step ha hb hc hrest =>
    rw [h1] at ha
    injection ha with ha
    rw [h2] at hb
    injection hb with hb
    subst ha
    subst hb
    exact absurd hc h3

theorem reachesVia_cons_iff (net : PKITokenNetwork) (t t' u : SecureToken) (h : String)
    (h1 : t.issuer_token_hash = some h) (h2 : pyLookupOpt net.tokens t.issuer_id = some t')
    (h3 : t'.token_hash = h) :
    ReachesVia net t u ↔ (u = t ∨ ReachesVia net t' u) := by
  constructor
  · intro hr
    cases hr with
    | refl => exact Or.inl rfl
    | step ha hb hc hrest =>
      rw [h2] at hb
      injection hb with hb
      subst hb
      exact Or.inr hrest
  · rintro (rfl | hr)
    · exact ReachesVia.refl u
    · exact ReachesVia.step h1 h2 h3 hr

theorem chainToRoot_root_inv (net : PKITokenNetwork) (t : SecureToken) (k : Nat)
    (h0 : t.issuer_token_hash = none) (hk : ChainToRoot net t k) :
    k = 1 ∧ net.master_token = some t := by
  cases hk with
  | root hz hm => exact ⟨rfl, hm⟩
  | step ha hb hc hrest => simp_all

theorem chainToRoot_cons_iff (net : PKITokenNetwork) (t t' : SecureToken) (h : String)
    (k : Nat) (h1 : t.issuer_token_hash = some h)
    (h2 : pyLookupOpt net.tokens t.issuer_id = some t') (h3 : t'.token_hash = h) :
    ChainToRoot net t k ↔ ∃ k', k = k' + 1 ∧ ChainToRoot net t' k' := by
  constructor
  · intro hk
    cases hk with
    | root hz hm => rw [h1] at hz; exact absurd hz (by simp)
    | step ha hb hc hrest =>
      rw [h2] at hb
      injection hb with hb
      subst hb
      exact ⟨_, rfl, hrest⟩
  · rintro ⟨k', rfl, hk⟩
    exact ChainToRoot.step h1 h2 h3 hk

theorem chainToRoot_not_root (net : PKITokenNetwork) (t : SecureToken)
    (h0 : t.issuer_token_hash = none) (hm : net.master_token ≠ some t) :
    ¬∃ k, ChainToRoot net t k := by
  rintro ⟨k, hk⟩
  cases hk with
  | root hz hm' => exact hm hm'
  | step ha hb hc hrest => simp_all

theorem chainToRoot_not_missing (net : PKITokenNetwork) (t : SecureToken) (h : String)
    (h1 : t.issuer_token_hash = some h) (h2 : pyLookupOpt net.tokens t.issuer_id = none) :
    ¬∃ k, ChainToRoot net t k := by
  rintro ⟨k, hk⟩
  cases hk with
  | root hz hm' => rw [h1] at hz; exact absurd hz (by simp)
  | step ha hb hc hrest => simp_all

theorem chainToRoot_not_mismatch (net : PKITokenNetwork) (t t' : SecureToken) (h : String)
    (h1 : t.issuer_token_hash = some h) (h2 : pyLookupOpt net.tokens t.issuer_id = some t')
    (h3 : t'.token_hash ≠ h) : ¬∃ k, ChainToRoot net t k := by
  rintro ⟨k, hk⟩
  cases hk with
  | root hz hm' => rw [h1] at hz; exact absurd hz (by simp)
  | step ha hb hc hrest =>
    rw [h1] at ha
    injection ha with ha
    rw [h2] at hb
    injection hb with hb
    subst ha
    subst hb
    exact absurd hc h3

theorem verifyTokenGo_spec (net : PKITokenNetwork) (m : SecureToken → Nat)
    (hm : MeasureOK net m) :
    ∀ fuel t chain, InStore net t → m t < fuel →
    ∃ b suffix,
      PKITokenNetwork.verifyTokenGo net fuel t chain = some (b, chain ++ suffix) ∧
      suffix ≠ [] ∧
      (b = true ↔ ∃ k, ChainToRoot net t k) ∧
      (∀ k, ChainToRoot net t k → b = true ∧ suffix.length = k) ∧
      (FailsMissingIssuer net t → b = false ∧
        ∃ i, suffix.getLast? = some ("Issuer " ++ i ++ " not found")) ∧
      (FailsHashMismatch net t → b = false ∧
        suffix.getLast? = some "Hash chain broken - issuer token hash mismatch") ∧
      (FailsInvalidRoot net t → b = false ∧
        suffix.getLast? = some "Invalid master token") := by
  intro fuel
  induction fuel with
  | zero => intro t chain _ hf; omega
  | succ fuel ih =>
    intro t chain hin hf
    cases hith : t.issuer_token_hash with
    | none =>
      by_cases hmt : net.master_token = some t
      · refine ⟨true, [t.node_id ++ " -> " ++ t.token_hash.take 16 ++ "..."], ?_, by simp,
          ?_, ?_, ?_, ?_, ?_⟩
        · simp [PKITokenNetwork.verifyTokenGo, hith, hmt]
        · exact ⟨fun _ => ⟨1, ChainToRoot.root hith hmt⟩, fun _ => rfl⟩
        · intro k hk
          obtain ⟨hk1, _⟩ := chainToRoot_root_inv net t k hith hk
          subst hk1
          exact ⟨rfl, rfl⟩
        · rintro ⟨u, hh, hr, ha, hb⟩
          have hu := reachesVia_of_root net t u hith hr
          subst hu
          rw [hith] at ha
          exact absurd ha (by simp)
        · rintro ⟨u, hh, u', hr, ha, hb, hc⟩
          have hu := reachesVia_of_root net t u hith hr
          subst hu
          rw [hith] at ha
          exact absurd ha (by simp)
        · rintro ⟨u, hr, h0, hne⟩
          have hu := reachesVia_of_root net t u hith hr
          subst hu
          exact absurd hmt hne
      · refine ⟨false, [t.node_id ++ " -> " ++ t.token_hash.take 16 ++ "...",
          "Invalid master token"], ?_, by simp, ?_, ?_, ?_, ?_, ?_⟩
        · simp [PKITokenNetwork.verifyTokenGo, hith, hmt]
        · exact iff_of_false (by simp) (chainToRoot_not_root net t hith hmt)
        · intro k hk
          exact absurd ⟨k, hk⟩ (chainToRoot_not_root net t hith hmt)
        · rintro ⟨u, hh, hr, ha, hb⟩
          have hu := reachesVia_of_root net t u hith hr
          subst hu
          rw [hith] at ha
          exact absurd ha (by simp)
        · rintro ⟨u, hh, u', hr, ha, hb, hc⟩
          have hu := reachesVia_of_root net t u hith hr
          subst hu
          rw [hith] at ha
          exact absurd ha (by simp)
        · intro _
          exact ⟨rfl, by simp⟩
    | some hh =>
      cases hlk : pyLookupOpt net.tokens t.issuer_id with
      | none =>
        refine ⟨false, [t.node_id ++ " -> " ++ t.token_hash.take 16 ++ "...",
          "Issuer " ++ pyStrOpt t.issuer_id ++ " not found"], ?_, by simp, ?_, ?_, ?_, ?_, ?_⟩
        · simp [PKITokenNetwork.verifyTokenGo, hith, hlk]
        · exact iff_of_false (by simp) (chainToRoot_not_missing net t hh hith hlk)
        · intro k hk
          exact absurd ⟨k, hk⟩ (chainToRoot_not_missing net t hh hith hlk)
        · intro _
          exact ⟨rfl, ⟨pyStrOpt t.issuer_id, by simp⟩⟩
        · rintro ⟨u, hh', u', hr, ha, hb, hc⟩
          have hu := reachesVia_of_missing net t u hlk hr
          subst hu
          rw [hlk] at hb
          exact absurd hb (by simp)
        · rintro ⟨u, hr, h0, hne⟩
          have hu := reachesVia_of_missing net t u hlk hr
          subst hu
          rw [hith] at h0
          exact absurd h0 (by simp)
      | some t2 =>
        by_cases hmis : t2.token_hash = hh
        · have hin2 : InStore net t2 := by
            cases hii : t.issuer_id with
            | none => rw [hii] at hlk; exact absurd hlk (by simp [pyLookupOpt])
            | some i =>
              rw [hii] at hlk
              exact ⟨i, hlk⟩
          have hstep : m t2 < m t := hm t t2 hin hlk
          obtain ⟨b, suffix', heq, hne, hiff, hlen, hmiss, hmm, hroot⟩ :=
            ih t2 (chain ++ [t.node_id ++ " -> " ++ t.token_hash.take 16 ++ "..."]) hin2
              (by omega)
          refine ⟨b, (t.node_id ++ " -> " ++ t.token_hash.take 16 ++ "...") :: suffix',
            ?_, by simp, ?_, ?_, ?_, ?_, ?_⟩
          · have hred : PKITokenNetwork.verifyTokenGo net (fuel + 1) t chain =
                PKITokenNetwork.verifyTokenGo net fuel t2
                  (chain ++ [t.node_id ++ " -> " ++ t.token_hash.take 16 ++ "..."]) := by
              simp [PKITokenNetwork.verifyTokenGo, hith, hlk, hmis]
            rw [hred, heq]
            simp
          · constructor
            · intro hb
              obtain ⟨k, hk⟩ := hiff.mp hb
              exact ⟨k + 1, ChainToRoot.step hith hlk hmis hk⟩
            · rintro ⟨k, hk⟩
              obtain ⟨k', hkeq, hk2⟩ :=
                (chainToRoot_cons_iff net t t2 hh k hith hlk hmis).mp hk
              exact hiff.mpr ⟨k', hk2⟩
          · intro k hk
            obtain ⟨k', hkeq, hk2⟩ :=
              (chainToRoot_cons_iff net t t2 hh k hith hlk hmis).mp hk
            obtain ⟨hb, hlen'⟩ := hlen k' hk2
            subst hkeq
            exact ⟨hb, by simp [hlen']⟩
          · rintro ⟨u, hh', hr, ha, hb⟩
            rcases (reachesVia_cons_iff net t t2 u hh hith hlk hmis).mp hr with rfl | hr2
            · rw [hlk] at hb
              exact absurd hb (by simp)
            · obtain ⟨hb', i, hi⟩ := hmiss ⟨u, hh', hr2, ha, hb⟩
              refine ⟨hb', i, ?_⟩
              rw [getLast?_cons_of_ne_nil _ suffix' hne]
              exact hi
          · rintro ⟨u, hh', u', hr, ha, hb, hc⟩
            rcases (reachesVia_cons_iff net t t2 u hh hith hlk hmis).mp hr with rfl | hr2
            · rw [hith] at ha
              injection ha with ha
              subst ha
              rw [hlk] at hb
              injection hb with hb
              subst hb
              exact absurd hmis hc
            · obtain ⟨hb', hl⟩ := hmm ⟨u, hh', u', hr2, ha, hb, hc⟩
              refine ⟨hb', ?_⟩
              rw [getLast?_cons_of_ne_nil _ suffix' hne]
              exact hl
          · rintro ⟨u, hr, h0, hne'⟩
            rcases (reachesVia_cons_iff net t t2 u hh hith hlk hmis).mp hr with rfl | hr2
            · rw [hith] at h0
              exact absurd h0 (by simp)
            · obtain ⟨hb', hl⟩ := hroot ⟨u, hr2, h0, hne'⟩
              refine ⟨hb', ?_⟩
              rw [getLast?_cons_of_ne_nil _ suffix' hne]
              exact hl
        · refine ⟨false, [t.node_id ++ " -> " ++ t.token_hash.take 16 ++ "...",
            "Hash chain broken - issuer token hash mismatch"], ?_, by simp, ?_, ?_, ?_, ?_, ?_⟩
          · simp [PKITokenNetwork.verifyTokenGo, hith, hlk, hmis]
          · exact iff_of_false (by simp) (chainToRoot_not_mismatch net t t2 hh hith hlk hmis)
          · intro k hk
            exact absurd ⟨k, hk⟩ (chainToRoot_not_mismatch net t t2 hh hith hlk hmis)
          · rintro ⟨u, hh', hr, ha, hb⟩
            have hu := reachesVia_of_mismatch net t u t2 hh hith hlk hmis hr
            subst hu
            rw [hlk] at hb
            exact absurd hb (by simp)
          · intro _
            exact ⟨rfl, by simp⟩
          · rintro ⟨u, hr, h0, hne'⟩
            have hu := reachesVia_of_mismatch net t u t2 hh hith hlk hmis hr
            subst hu
            rw [hith] at h0
            exact absurd h0 (by simp)

theorem issuedTok_fields (env : CryptoEnv) (net : PKITokenNetwork) (i : String)
    (tok0 : SecureToken) (mtName : String) :
    (issuedTok env net i tok0 mtName).node_id = tok0.node_id ∧
    (issuedTok env net i tok0 mtName).issuer_token_hash = tok0.issuer_token_hash ∧
    (issuedTok env net i tok0 mtName).issuer_id = tok0.issuer_id ∧
    (issuedTok env net i tok0 mtName).hierarchy_level = tok0.hierarchy_level ∧
    ((issuedTok env net i tok0 mtName).master_id = tok0.master_id ∨
     (issuedTok env net i tok0 mtName).master_id = some mtName) := by
  simp only [issuedTok]
  obtain ⟨f1, f2, f3, f4, f5, f6⟩ :=
    add_master_signature_frame env tok0 net.master_private_key mtName
  have hmid :
      (SecureToken.add_master_signature env tok0 net.master_private_key mtName).master_id =
        tok0.master_id ∨
      (SecureToken.add_master_signature env tok0 net.master_private_key mtName).master_id =
        some mtName := by
    rcases add_master_signature_cases env tok0 net.master_private_key mtName with
      hc | ⟨sk, sig, _, _, hc⟩
    · exact Or.inl (by rw [hc])
    · exact Or.inr (by rw [hc])
  cases hk : dictLookup
      (PKITokenNetwork.ensure_node_keys env { net with fresh := net.fresh + 1 } i).node_keys
      i with
  | none => exact ⟨f1, f2, f3, f6, hmid⟩
  | some kp =>
    obtain ⟨g1, g2, g3, g4, g5, g6, g7⟩ := add_issuer_signature_frame env
      (SecureToken.add_master_signature env tok0 net.master_private_key mtName) (some kp.1) i
    refine ⟨g1.trans f1, g2.trans f2, g3.trans f3, g6.trans f6, ?_⟩
    rcases hmid with hmid | hmid
    · exact Or.inl (g7.trans hmid)
    · exact Or.inr (g7.trans hmid)

theorem add_master_signature_paths_mono (env : CryptoEnv) (t : SecureToken)
    (k : Option String) (mid p : String) (hp : p ∈ t.verification_paths) :
    p ∈ (SecureToken.add_master_signature env t k mid).verification_paths := by
  rcases add_master_signature_cases env t k mid with hc | ⟨sk, sig, _, _, hc⟩ <;> rw [hc]
  · exact hp
  · exact (mem_pySetAdd _ _ _).mpr (Or.inl hp)

theorem add_issuer_signature_paths_mono (env : CryptoEnv) (t : SecureToken)
    (k : Option String) (iid p : String) (hp : p ∈ t.verification_paths) :
    p ∈ (SecureToken.add_issuer_signature env t k iid).verification_paths := by
  rcases add_issuer_signature_cases env t k iid with hc | ⟨sk, sig, _, _, _, hc⟩ <;> rw [hc]
  · exact hp
  · exact (mem_pySetAdd _ _ _).mpr (Or.inl hp)

theorem issuedTok_chain_mem (env : CryptoEnv) (net : PKITokenNetwork) (i : String)
    (tok0 : SecureToken) (mtName : String) (p : String) (hp : p ∈ tok0.verification_paths) :
    p ∈ (issuedTok env net i tok0 mtName).verification_paths := by
  simp only [issuedTok]
  have h1 := add_master_signature_paths_mono env tok0 net.master_private_key mtName p hp
  cases hk : dictLookup
      (PKITokenNetwork.ensure_node_keys env { net with fresh := net.fresh + 1 } i).node_keys
      i with
  | none => exact h1
  | some kp =>
    exact add_issuer_signature_paths_mono env
      (SecureToken.add_master_signature env tok0 net.master_private_key mtName) (some kp.1) i
      p h1

theorem issue_token_cases (env : CryptoEnv) (net : PKITokenNetwork)
    (i n : String) (d : Option String) :
    (∃ e, PKITokenNetwork.issue_token env net i n d = (Except.error e, net)) ∨
    (∃ tok net', PKITokenNetwork.issue_token env net i n d = (Except.ok tok, net')) := by
  cases hmt : net.master_token with
  | none => exact Or.inl ⟨_, issue_token_no_master env net i n d hmt⟩
  | some mt =>
    cases hlt : dictLookup net.tokens i with
    | none => exact Or.inl ⟨_, issue_token_no_issuer env net i n d mt hmt hlt⟩
    | some it =>
      by_cases hself : i = n
      · exact Or.inl ⟨_, issue_token_self env net i n d mt it hmt hlt hself⟩
      · cases hdup : dictLookup net.tokens n with
        | some t' =>
          exact Or.inl ⟨_, issue_token_dup env net i n d mt it hmt hlt hself (by rw [hdup]; rfl)⟩
        | none =>
          cases hinit : SecureToken.init env (tsOf net.fresh) (tidOf net.fresh) n
              (some it.token_hash) (some i) d (some mt.node_id)
              (it.hierarchy_level + 1) with
          | error e =>
            exact Or.inl ⟨_, issue_token_bad_id env net i n d mt it e hmt hlt hself hdup hinit⟩
          | ok tok0 =>
            exact Or.inr ⟨_, _, issue_token_ok_eq env net i n d mt it tok0 hmt hlt hself hdup hinit⟩

theorem issue_token_preserves_lookup (env : CryptoEnv) (net : PKITokenNetwork)
    (i n : String) (d : Option String) (key : String) (tok : SecureToken)
    (hk : dictLookup net.tokens key = some tok) :
    dictLookup ((PKITokenNetwork.issue_token env net i n d).2).tokens key = some tok := by
  rcases issue_token_cases env net i n d with ⟨e, he⟩ | ⟨tok', net', hok⟩
  · rw [he]; exact hk
  · rw [hok]
    obtain ⟨mt, it, tok0, _, _, _, hdup, _, _, hnet⟩ :=
      issue_token_ok_inv env net i n d tok' net' hok
    subst hnet
    rw [issuedNet_tokens]
    have hne : key ≠ n := by
      intro heq
      subst heq
      rw [hk] at hdup
      exact absurd hdup (by simp)
    rw [dictLookup_dictInsert_ne net.tokens n key _ hne]
    exact hk

theorem issue_token_preserves_master (env : CryptoEnv) (net : PKITokenNetwork)
    (i n : String) (d : Option String) :
    ((PKITokenNetwork.issue_token env net i n d).2).master_token = net.master_token := by
  rcases issue_token_cases env net i n d with ⟨e, he⟩ | ⟨tok', net', hok⟩
  · rw [he]
  · rw [hok]
    obtain ⟨mt, it, tok0, _, _, _, _, _, _, hnet⟩ :=
      issue_token_ok_inv env net i n d tok' net' hok
    subst hnet
    exact issuedNet_master env net i n tok0 mt.node_id

theorem load_tokens_master (net : PKITokenNetwork) (records : List TokenRecord) :
    (PKITokenNetwork.load_tokens net records).master_token =
      match (records.filter fun d => d.issuer_token_hash.isNone).getLast? with
      | some d => some (SecureToken.from_dict d)
      | none => net.master_token := by
  induction records generalizing net with
  | nil => rfl
  | cons d rest ih =>
    have hstep : PKITokenNetwork.load_tokens net (d :: rest) =
        PKITokenNetwork.load_tokens (loadTokenStep net d) rest := rfl
    rw [hstep, ih (loadTokenStep net d), List.filter_cons]
    cases hl : (rest.filter fun d => d.issuer_token_hash.isNone).getLast? with
    | some e =>
      have hne : rest.filter (fun d => d.issuer_token_hash.isNone) ≠ [] := by
        intro hnil
        rw [hnil] at hl
        exact absurd hl (by simp)
      by_cases hp : d.issuer_token_hash.isNone = true
      · rw [if_pos hp, getLast?_cons_of_ne_nil _ _ hne, hl]
      · rw [if_neg hp, hl]
    | none =>
      have hnil : rest.filter (fun d => d.issuer_token_hash.isNone) = [] := by
        rwa [List.getLast?_eq_none_iff] at hl
      by_cases hp : d.issuer_token_hash.isNone = true
      · rw [if_pos hp, hnil]
        simp [loadTokenStep, SecureToken.from_dict, Option.isNone_iff_eq_none.mp hp]
      · rw [if_neg hp, hnil]
        simp only [List.getLast?_nil]
        simp [loadTokenStep, SecureToken.from_dict, hp]

/-! ### Claim theorems -/

/-- C10: deserialization performs no validation and no recomputation.
For every record with the required keys, `from_dict` copies `node_id`,
`token_hash` and every other field verbatim (enhanced keys fall back to
the documented defaults), and the resulting token — even one whose
`node_id` would be rejected by the constructor or whose `token_hash`
does not match its content — enters the in-memory store under its own
`node_id` when loaded, bypassing the constructor-time identifier
invariant. -/
theorem C10_from_dict_verbatim (net : PKITokenNetwork) (d : TokenRecord) :
    (SecureToken.from_dict d).node_id = d.node_id ∧
    (SecureToken.from_dict d).issuer_token_hash = d.issuer_token_hash ∧
    (SecureToken.from_dict d).issuer_id = d.issuer_id ∧
    (SecureToken.from_dict d).timestamp = d.timestamp ∧
    (SecureToken.from_dict d).token_id = d.token_id ∧
    (SecureToken.from_dict d).token_data = d.token_data ∧
    (SecureToken.from_dict d).token_hash = d.token_hash ∧
    (SecureToken.from_dict d).master_id =
      d.master_id.getD (if d.issuer_token_hash.isNone then some d.node_id else none) ∧
    (SecureToken.from_dict d).hierarchy_level = d.hierarchy_level.getD 0 ∧
    (SecureToken.from_dict d).master_signature = d.master_signature.getD none ∧
    (SecureToken.from_dict d).issuer_signature = d.issuer_signature.getD none ∧
    dictLookup (PKITokenNetwork.load_tokens net [d]).tokens d.node_id =
      some (SecureToken.from_dict d) := by
  refine ⟨rfl, rfl, rfl, rfl, rfl, rfl, rfl, rfl, rfl, rfl, rfl, ?_⟩
  show dictLookup (loadTokenStep net d).tokens d.node_id = some (SecureToken.from_dict d)
  simp only [loadTokenStep]
  exact dictLookup_dictInsert_self net.tokens d.node_id (SecureToken.from_dict d)

/-- C9: serialization round-trips.  Deserializing a serialized token
yields a token equal to the original in every field; the serialized
`verification_paths` list may be stored in any order (any list with the
same members), and the deserialized paths agree with the original as a
set. -/
theorem C9_roundtrip (t : SecureToken) (l : List String)
    (hl : ∀ p, p ∈ l ↔ p ∈ t.verification_paths) :
    (SecureToken.from_dict { t.to_dict with verification_paths := some l }).node_id
        = t.node_id ∧
    (SecureToken.from_dict { t.to_dict with verification_paths := some l }).issuer_token_hash
        = t.issuer_token_hash ∧
    (SecureToken.from_dict { t.to_dict with verification_paths := some l }).issuer_id
        = t.issuer_id ∧
    (SecureToken.from_dict { t.to_dict with verification_paths := some l }).timestamp
        = t.timestamp ∧
    (SecureToken.from_dict { t.to_dict with verification_paths := some l }).token_id
        = t.token_id ∧
    (SecureToken.from_dict { t.to_dict with verification_paths := some l }).token_data
        = t.token_data ∧
    (SecureToken.from_dict { t.to_dict with verification_paths := some l }).token_hash
        = t.token_hash ∧
    (SecureToken.from_dict { t.to_dict with verification_paths := some l }).master_id
        = t.master_id ∧
    (SecureToken.from_dict { t.to_dict with verification_paths := some l }).hierarchy_level
        = t.hierarchy_level ∧
    (SecureToken.from_dict { t.to_dict with verification_paths := some l }).master_signature
        = t.master_signature ∧
    (SecureToken.from_dict { t.to_dict with verification_paths := some l }).issuer_signature
        = t.issuer_signature ∧
    (SecureToken.from_dict { t.to_dict with verification_paths := some l }).delegation_proof
        = t.delegation_proof ∧
    (SecureToken.from_dict { t.to_dict with verification_paths := some l }).merkle_proof
        = t.merkle_proof ∧
    (∀ p,
      p ∈ (SecureToken.from_dict
            { t.to_dict with verification_paths := some l }).verification_paths ↔
      p ∈ t.verification_paths) := by
  refine ⟨rfl, rfl, rfl, rfl, rfl, rfl, rfl, rfl, rfl, rfl, rfl, rfl, rfl, ?_⟩
  intro p
  show p ∈ l.dedup ↔ p ∈ t.verification_paths
  rw [List.mem_dedup]
  exact hl p

/-- Witness for C9 at a concrete token whose serialized path list is
stored in reversed order. -/
theorem C9_roundtrip_witness :
    (SecureToken.from_dict
        { tokMD.to_dict with
            verification_paths := some ["master-direct", "chain"] }).node_id
      = tokMD.node_id ∧
    ("chain" ∈ (SecureToken.from_dict
        { tokMD.to_dict with
            verification_paths := some ["master-direct", "chain"] }).verification_paths ↔
      "chain" ∈ tokMD.verification_paths) := by
  have h := C9_roundtrip tokMD ["master-direct", "chain"]
    (by
      intro p
      show p ∈ ["master-direct", "chain"] ↔ p ∈ tokMD.verification_paths
      simp [tokMD]
      tauto)
  exact ⟨h.1, h.2.2.2.2.2.2.2.2.2.2.2.2.2 "chain"⟩

/-- C5 (amended): when a store is loaded and the records contain
root-shaped entries (absent `issuer_token_hash`), the LAST such record
encountered in the load iteration order — not the first — is the one
registered as the active root; with no root-shaped record the previous
registration stands. -/
theorem C5_last_root_wins (net : PKITokenNetwork) (records : List TokenRecord) :
    (PKITokenNetwork.load_tokens net records).master_token =
      match (records.filter fun d => d.issuer_token_hash.isNone).getLast? with
      | some d => some (SecureToken.from_dict d)
      | none => net.master_token :=
  load_tokens_master net records

/-- Counterexample to C5 as stated: loading two root-shaped records
registers the SECOND (last encountered) record `recB` as the active root,
not the first `recA`. -/
theorem C5_counterexample :
    (PKITokenNetwork.load_tokens emptyNetwork [recA, recB]).master_token =
      some (SecureToken.from_dict recB) ∧
    SecureToken.from_dict recB ≠ SecureToken.from_dict recA := by
  constructor
  · rfl
  · decide

/-- C6 (amended): `SecureToken` construction succeeds iff the `node_id`
is non-empty, at most 64 characters, drawn only from alphanumerics and
`-`, `_`, `.`, AND contains at least one alphanumeric character; it
raises an InvalidIdentifier-kind error otherwise.  (A non-empty string of
allowed characters consisting solely of `-`, `_`, `.` is REJECTED,
because the stripped string is empty and Python's `isalnum` is false on
the empty string — this is the one point where the original claim fails.) -/
theorem C6_identifier_validation (env : CryptoEnv) (ts tid nid : String)
    (ith iid td mid : Option String) (hl : Int) :
    ((∃ t, SecureToken.init env ts tid nid ith iid td mid hl = Except.ok t) ↔
      (nid ≠ "" ∧ nid.length ≤ 64 ∧ (∀ c ∈ nid.data, allowedChar c = true) ∧
        ∃ c ∈ nid.data, Char.isAlphanum c = true)) ∧
    (¬(nid ≠ "" ∧ nid.length ≤ 64 ∧ (∀ c ∈ nid.data, allowedChar c = true) ∧
        ∃ c ∈ nid.data, Char.isAlphanum c = true) →
      ∃ e, SecureToken.init env ts tid nid ith iid td mid hl = Except.error e) := by
  refine ⟨init_ok_iff env ts tid nid ith iid td mid hl, ?_⟩
  intro hnot
  cases hres : SecureToken.init env ts tid nid ith iid td mid hl with
  | error e => exact ⟨e, rfl⟩
  | ok t =>
    exact absurd ((init_ok_iff env ts tid nid ith iid td mid hl).mp ⟨t, hres⟩) hnot

/-- Witness for C6: a representative identifier using every allowed
character class constructs successfully. -/
theorem C6_identifier_validation_witness :
    ∃ t, SecureToken.init envEx "t" "u" "node-1.a_b" none none none none 0 = Except.ok t :=
  (C6_identifier_validation envEx "t" "u" "node-1.a_b" none none none none 0).1.mpr
    (by refine ⟨by decide, by decide, by decide, ?_⟩; exact ⟨'n', by decide, by decide⟩)

/-- Counterexample to C6 as stated: `"."` is non-empty, within the length
bound and drawn only from the allowed set, yet construction raises the
disallowed-characters error instead of succeeding. -/
theorem C6_counterexample :
    SecureToken.init envEx "t" "u" "." none none none none 0 =
      Except.error
        "Node ID must contain only alphanumeric characters, hyphens, underscores, and dots" := by
  rfl

/-- C7 (amended): every token built by the constructor starts with
exactly `{"chain"}`; tokens returned by `create_master_token` and
`issue_token` contain `"chain"`; signature attachment preserves existing
paths and adds `"master-direct"` / `"issuer-direct"` exactly when the
corresponding signature is successfully attached.  A token loaded via
`from_dict`, however, contains `"chain"` iff the record's
`verification_paths` key is absent (defaulting to `{"chain"}`) or its
list contains `"chain"` — a record with an explicit list omitting
`"chain"` yields a token without it, which is where the original claim
fails. -/
theorem C7_verification_paths (env : CryptoEnv) :
    (∀ ts tid nid ith iid td mid hl t,
        SecureToken.init env ts tid nid ith iid td mid hl = Except.ok t →
        t.verification_paths = ["chain"]) ∧
    (∀ net m tok net',
        PKITokenNetwork.create_master_token env net m = (Except.ok tok, net') →
        "chain" ∈ tok.verification_paths) ∧
    (∀ net i n d tok net',
        PKITokenNetwork.issue_token env net i n d = (Except.ok tok, net') →
        "chain" ∈ tok.verification_paths) ∧
    (∀ t k mid p, p ∈ t.verification_paths →
        p ∈ (SecureToken.add_master_signature env t k mid).verification_paths) ∧
    (∀ t k mid,
        "master-direct" ∈ (SecureToken.add_master_signature env t k mid).verification_paths ↔
        ("master-direct" ∈ t.verification_paths ∨ ∃ sk sig, k = some sk ∧
          env.rsaSign sk (t.node_id ++ ":" ++ t.token_hash ++ ":" ++ mid ++ ":" ++ t.timestamp)
            = some sig)) ∧
    (∀ t k iid p, p ∈ t.verification_paths →
        p ∈ (SecureToken.add_issuer_signature env t k iid).verification_paths) ∧
    (∀ t k iid,
        "issuer-direct" ∈ (SecureToken.add_issuer_signature env t k iid).verification_paths ↔
        ("issuer-direct" ∈ t.verification_paths ∨ (iid ≠ "" ∧ ∃ sk sig, k = some sk ∧
          env.rsaSign sk (t.node_id ++ ":" ++ t.token_hash ++ ":" ++ iid ++ ":" ++ t.timestamp)
            = some sig))) ∧
    (∀ d, "chain" ∈ (SecureToken.from_dict d).verification_paths ↔
        (d.verification_paths = none ∨
          ∃ l, d.verification_paths = some l ∧ "chain" ∈ l)) := by
  refine ⟨?_, ?_, ?_, ?_, ?_, ?_, ?_, ?_⟩
  · intro ts tid nid ith iid td mid hl t ht
    exact (init_ok_fields env ts tid nid ith iid td mid hl t ht).2.2.2.2.2.2.2.2
  · intro net m tok net' hc
    obtain ⟨tok0, _, _, hinit, htok, _⟩ := create_master_ok_inv env net m tok net' hc
    have hp : "chain" ∈ tok0.verification_paths := by
      rw [(init_ok_fields env _ _ m none none none (some m) 0 tok0 hinit).2.2.2.2.2.2.2.2]
      exact List.mem_singleton.mpr rfl
    rw [htok]
    exact add_master_signature_paths_mono env tok0 _ m "chain" hp
  · intro net i n d tok net' hc
    obtain ⟨mt, it, tok0, _, _, _, _, hinit, htok, _⟩ :=
      issue_token_ok_inv env net i n d tok net' hc
    have hp : "chain" ∈ tok0.verification_paths := by
      rw [(init_ok_fields env _ _ n _ _ d _ _ tok0 hinit).2.2.2.2.2.2.2.2]
      exact List.mem_singleton.mpr rfl
    rw [htok]
    exact issuedTok_chain_mem env net i tok0 mt.node_id "chain" hp
  · exact fun t k mid p hp => add_master_signature_paths_mono env t k mid p hp
  · intro t k mid
    constructor
    · intro hmem
      rcases add_master_signature_cases env t k mid with hc | ⟨sk, sig, hks, hsig, hc⟩
      · rw [hc] at hmem
        exact Or.inl hmem
      · exact Or.inr ⟨sk, sig, hks, hsig⟩
    · rintro (hp | ⟨sk, sig, rfl, hsig⟩)
      · exact add_master_signature_paths_mono env t k mid _ hp
      · simp only [SecureToken.add_master_signature, hsig]
        exact (mem_pySetAdd _ _ _).mpr (Or.inr rfl)
  · exact fun t k iid p hp => add_issuer_signature_paths_mono env t k iid p hp
  · intro t k iid
    constructor
    · intro hmem
      rcases add_issuer_signature_cases env t k iid with hc | ⟨sk, sig, hiid, hks, hsig, hc⟩
      · rw [hc] at hmem
        exact Or.inl hmem
      · exact Or.inr ⟨hiid, sk, sig, hks, hsig⟩
    · rintro (hp | ⟨hiid, sk, sig, rfl, hsig⟩)
      · exact add_issuer_signature_paths_mono env t k iid _ hp
      · simp only [SecureToken.add_issuer_signature, if_neg hiid, hsig]
        exact (mem_pySetAdd _ _ _).mpr (Or.inr rfl)
  · intro d
    cases hv : d.verification_paths with
    | none => simp [SecureToken.from_dict, hv]
    | some l => simp [SecureToken.from_dict, hv, List.mem_dedup]

/-- Witness for C7: `"chain"` survives a master-signature attachment on a
concrete token. -/
theorem C7_verification_paths_witness :
    "chain" ∈ (SecureToken.add_master_signature envEx tokL none "m").verification_paths :=
  (C7_verification_paths envEx).2.2.2.1 tokL none "m" "chain" (by decide)

/-- Counterexample to C7 as stated: a record whose `verification_paths`
list omits `"chain"` deserializes to a token without `"chain"`. -/
theorem C7_counterexample :
    "chain" ∉ (SecureToken.from_dict recNoChain).verification_paths := by
  decide

/-- C2: master-direct verification depends only on the entry stored under
the queried node id and the master public key — any two network states
agreeing on those give the same result, regardless of which intermediate
tokens are present — and for a token whose master signature does not
verify (corrupted), or with the `"master-direct"` path or the master
public key absent, it returns `False` with a diagnostic trace (the
embedded function is total: it never raises). -/
theorem C2_master_direct (rv : String → String → String → Bool) :
    (∀ net1 net2 n, dictLookup net1.tokens n = dictLookup net2.tokens n →
       net1.master_public_key = net2.master_public_key →
       PKITokenNetwork.verify_token_direct_master rv net1 n =
         PKITokenNetwork.verify_token_direct_master rv net2 n) ∧
    (∀ net n t, dictLookup net.tokens n = some t →
       ("master-direct" ∉ t.verification_paths →
         PKITokenNetwork.verify_token_direct_master rv net n =
           (false, ["Master signature verification not available for this token"])) ∧
       ("master-direct" ∈ t.verification_paths → net.master_public_key = none →
         PKITokenNetwork.verify_token_direct_master rv net n =
           (false, ["Master public key not available"])) ∧
       ("master-direct" ∈ t.verification_paths → net.master_public_key ≠ none →
         SecureToken.verify_master_signature rv t net.master_public_key = false →
         PKITokenNetwork.verify_token_direct_master rv net n =
           (false, ["Master signature verification failed"]))) := by
  constructor
  · intro net1 net2 n h1 h2
    unfold PKITokenNetwork.verify_token_direct_master
    rw [h1, h2]
  · intro net n t hlt
    refine ⟨?_, ?_, ?_⟩
    · intro hmem
      simp only [PKITokenNetwork.verify_token_direct_master, hlt, if_neg hmem]
    · intro hmem hkey
      simp only [PKITokenNetwork.verify_token_direct_master, hlt, if_pos hmem, hkey,
        Option.isNone_none, if_true]
    · intro hmem hkey hver
      have hks : net.master_public_key.isNone = false := by
        cases hkn : net.master_public_key with
        | none => exact absurd hkn hkey
        | some pk => rfl
      simp only [PKITokenNetwork.verify_token_direct_master, hlt, if_pos hmem, hks,
        Bool.false_eq_true, if_false, hver]

/-- Witness for C2: a token with a garbage master signature is rejected
with the failure trace under the all-rejecting verifier. -/
theorem C2_master_direct_witness :
    PKITokenNetwork.verify_token_direct_master rvFalse netMD "n" =
      (false, ["Master signature verification failed"]) :=
  (((C2_master_direct rvFalse).2 netMD "n" tokMD rfl).2.2) (by decide) (by decide) rfl

/-- C4 (amended): `issue_token` fails, checked in this order, with the
no-master error when no root is registered, the issuer-not-found error
when the issuer has no token, the self-issuance error when issuer and new
node coincide, and the duplicate-node error when the new node already has
a token; in addition — with all four conditions false — it fails when the
new node id does not pass identifier validation (the constructor raises
inside the `try` block).  Every failure leaves the state unchanged, and
issuance succeeds exactly when none of the five conditions holds. -/
theorem C4_issue_errors (env : CryptoEnv) (net : PKITokenNetwork) (i n : String)
    (d : Option String) :
    (net.master_token = none →
      PKITokenNetwork.issue_token env net i n d =
        (Except.error "No master token exists. Create a master token first.", net)) ∧
    (net.master_token ≠ none → dictLookup net.tokens i = none →
      PKITokenNetwork.issue_token env net i n d =
        (Except.error ("Issuer node " ++ i ++ " not found"), net)) ∧
    (net.master_token ≠ none → (dictLookup net.tokens i).isSome = true → i = n →
      PKITokenNetwork.issue_token env net i n d =
        (Except.error "Issuer and new node cannot be the same", net)) ∧
    (net.master_token ≠ none → (dictLookup net.tokens i).isSome = true → i ≠ n →
      (dictLookup net.tokens n).isSome = true →
      PKITokenNetwork.issue_token env net i n d =
        (Except.error ("Node " ++ n ++ " already has a token"), net)) ∧
    (∀ e net2, PKITokenNetwork.issue_token env net i n d = (Except.error e, net2) →
      net2 = net) ∧
    ((∃ tok net', PKITokenNetwork.issue_token env net i n d = (Except.ok tok, net')) ↔
      (net.master_token ≠ none ∧ (dictLookup net.tokens i).isSome = true ∧ i ≠ n ∧
        dictLookup net.tokens n = none ∧
        (n ≠ "" ∧ n.length ≤ 64 ∧ (∀ c ∈ n.data, allowedChar c = true) ∧
          ∃ c ∈ n.data, Char.isAlphanum c = true))) := by
  refine ⟨?_, ?_, ?_, ?_, ?_, ?_⟩
  · exact fun hmt => issue_token_no_master env net i n d hmt
  · intro hmt hlt
    cases hm : net.master_token with
    | none => exact absurd hm hmt
    | some mt => exact issue_token_no_issuer env net i n d mt hm hlt
  · intro hmt hlt hself
    cases hm : net.master_token with
    | none => exact absurd hm hmt
    | some mt =>
      cases hl : dictLookup net.tokens i with
      | none => rw [hl] at hlt; exact absurd hlt (by simp)
      | some it => exact issue_token_self env net i n d mt it hm hl hself
  · intro hmt hlt hself hdup
    cases hm : net.master_token with
    | none => exact absurd hm hmt
    | some mt =>
      cases hl : dictLookup net.tokens i with
      | none => rw [hl] at hlt; exact absurd hlt (by simp)
      | some it => exact issue_token_dup env net i n d mt it hm hl hself hdup
  · intro e net2 h
    rcases issue_token_cases env net i n d with ⟨e', he⟩ | ⟨tok', net'', hok⟩
    · rw [he] at h
      injection h with h1 h2
      exact h2.symm
    · rw [hok] at h
      exact absurd h (by simp)
  · constructor
    · rintro ⟨tok, net', hok⟩
      obtain ⟨mt, it, tok0, hmt, hlt, hself, hdup, hinit, _, _⟩ :=
        issue_token_ok_inv env net i n d tok net' hok
      refine ⟨by rw [hmt]; exact fun h => by simp at h, by rw [hlt]; rfl, hself, hdup, ?_⟩
      exact (init_ok_iff env (tsOf net.fresh) (tidOf net.fresh) n (some it.token_hash)
        (some i) d (some mt.node_id) (it.hierarchy_level + 1)).mp ⟨tok0, hinit⟩
    · rintro ⟨hmt, hlt, hself, hdup, hvalid⟩
      cases hm : net.master_token with
      | none => exact absurd hm hmt
      | some mt =>
        cases hl : dictLookup net.tokens i with
        | none => rw [hl] at hlt; exact absurd hlt (by simp)
        | some it =>
          obtain ⟨tok0, hinit⟩ := (init_ok_iff env (tsOf net.fresh) (tidOf net.fresh) n
            (some it.token_hash) (some i) d (some mt.node_id)
            (it.hierarchy_level + 1)).mpr hvalid
          exact ⟨_, _, issue_token_ok_eq env net i n d mt it tok0 hm hl hself hdup hinit⟩

/-- Witness for C4: issuing with no registered master fails with the
no-master error and leaves the empty network unchanged. -/
theorem C4_issue_errors_witness :
    PKITokenNetwork.issue_token envEx emptyNetwork "a" "b" none =
      (Except.error "No master token exists. Create a master token first.", emptyNetwork) :=
  (C4_issue_errors envEx emptyNetwork "a" "b" none).1 rfl

/-- Counterexample to C4 as stated: with a registered root, a known
issuer, distinct ids and a fresh target node, none of the four listed
conditions holds, yet `issue_token` still fails (the new node id
`"x y"` is rejected by the constructor inside the `try` block). -/
theorem C4_counterexample :
    netL.master_token ≠ none ∧ (dictLookup netL.tokens "root").isSome = true ∧
    "root" ≠ "x y" ∧ dictLookup netL.tokens "x y" = none ∧
    (PKITokenNetwork.issue_token envEx netL "root" "x y" none).1 =
      Except.error
        "Failed to issue token: Node ID must contain only alphanumeric characters, hyphens, underscores, and dots" := by
  refine ⟨by decide, by decide, by decide, by decide, ?_⟩
  rfl

/-- C8 (amended): a successful `issue_token` touches the per-node key map
at exactly the issuer AND the new node — the issuer's pair is created if
absent (lazily, because it must sign now) and the new node's pair is
created eagerly as well, for future issuance, contrary to the original
claim; existing pairs are never replaced, and every other node's entry is
unchanged. -/
theorem C8_node_keys (env : CryptoEnv) (net : PKITokenNetwork) (i n : String)
    (d : Option String) (tok : SecureToken) (net' : PKITokenNetwork)
    (hok : PKITokenNetwork.issue_token env net i n d = (Except.ok tok, net')) :
    (dictLookup net'.node_keys i).isSome = true ∧
    (dictLookup net'.node_keys n).isSome = true ∧
    (∀ k, k ≠ i → k ≠ n → dictLookup net'.node_keys k = dictLookup net.node_keys k) ∧
    (∀ kp, dictLookup net.node_keys i = some kp → dictLookup net'.node_keys i = some kp) ∧
    (∀ kp, dictLookup net.node_keys n = some kp → dictLookup net'.node_keys n = some kp) := by
  obtain ⟨mt, it, tok0, _, _, hself, _, _, _, hnet⟩ :=
    issue_token_ok_inv env net i n d tok net' hok
  subst hnet
  have hkeys : (issuedNet env net i n tok0 mt.node_id).node_keys =
      (PKITokenNetwork.ensure_node_keys env
        (PKITokenNetwork.ensure_node_keys env { net with fresh := net.fresh + 1 } i)
        n).node_keys := by
    simp only [issuedNet]
  rw [hkeys]
  refine ⟨?_, ?_, ?_, ?_, ?_⟩
  · rw [ensure_node_keys_other env _ n i hself]
    exact ensure_node_keys_isSome env _ i
  · exact ensure_node_keys_isSome env _ n
  · intro k hki hkn
    rw [ensure_node_keys_other env _ n k hkn, ensure_node_keys_other env _ i k hki]
  · intro kp hkp
    rw [ensure_node_keys_other env _ n i hself]
    exact ensure_node_keys_keeps env _ i kp hkp
  · intro kp hkp
    refine ensure_node_keys_keeps env _ n kp ?_
    rw [ensure_node_keys_other env _ i n (fun h => hself h.symm)]
    exact hkp

/-- Witness for C8: a concrete issuance creates key pairs for both the
issuer and the new node. -/
theorem C8_node_keys_witness :
    (dictLookup netA.node_keys "root").isSome = true ∧
    (dictLookup netA.node_keys "alice").isSome = true := by
  obtain ⟨h1, h2, _⟩ := C8_node_keys envEx netL "root" "alice" none tokA netA rfl
  exact ⟨h1, h2⟩

/-- Counterexample to C8 as stated: the new node `"alice"` had no key
pair before issuance, yet `issue_token` creates one for it eagerly — the
claim said no key pair is created for the new node until it later issues
a token of its own. -/
theorem C8_counterexample :
    dictLookup netL.node_keys "alice" = none ∧
    issueResL.1 = Except.ok tokA ∧
    (dictLookup netA.node_keys "alice").isSome = true := by
  exact ⟨rfl, rfl, rfl⟩

/-- C3: every successful `issue_token` returns (and stores under the new
node id) a token whose `hierarchy_level` is the issuer's level plus one,
whose `issuer_token_hash` is exactly the issuer's `token_hash` at
issuance, whose `issuer_id` is the issuer, and whose `master_id` is the
registered root's node id; the stored entry survives any later issuance
or master-creation step unchanged (tokens are never mutated).  The root's
node id is assumed non-empty, as holds for every legitimately created
root (a forged store record could carry an empty root id, which Python's
truthiness would then drop from `master_id`). -/
theorem C3_issue_fields (env : CryptoEnv) (net : PKITokenNetwork) (i n : String)
    (d : Option String) (tok : SecureToken) (net' : PKITokenNetwork) (mt : SecureToken)
    (hmt : net.master_token = some mt) (hroot : mt.node_id ≠ "")
    (hok : PKITokenNetwork.issue_token env net i n d = (Except.ok tok, net')) :
    ∃ issuer_token, dictLookup net.tokens i = some issuer_token ∧
      tok.hierarchy_level = issuer_token.hierarchy_level + 1 ∧
      tok.issuer_token_hash = some issuer_token.token_hash ∧
      tok.issuer_id = some i ∧
      tok.master_id = some mt.node_id ∧
      dictLookup net'.tokens n = some tok ∧
      (∀ env2 i2 n2 d2,
        dictLookup ((PKITokenNetwork.issue_token env2 net' i2 n2 d2).2).tokens n = some tok) ∧
      (∀ env2 m2,
        dictLookup ((PKITokenNetwork.create_master_token env2 net' m2).2).tokens n
          = some tok) := by
  obtain ⟨mt', it, tok0, hmt', hlt, hself, hdup, hinit, htok, hnet⟩ :=
    issue_token_ok_inv env net i n d tok net' hok
  rw [hmt] at hmt'
  injection hmt' with hmt'
  subst hmt'
  obtain ⟨f0, f1, f2, f3, fmid⟩ := issuedTok_fields env net i tok0 mt.node_id
  obtain ⟨g0, g1, g2, g3, g4, gmid, _, _, _⟩ :=
    init_ok_fields env (tsOf net.fresh) (tidOf net.fresh) n (some it.token_hash) (some i) d
      (some mt.node_id) (it.hierarchy_level + 1) tok0 hinit
  have hstored : dictLookup net'.tokens n = some tok := by
    rw [hnet, issuedNet_tokens, htok]
    exact dictLookup_dictInsert_self net.tokens n (issuedTok env net i tok0 mt.node_id)
  have hmaster' : net'.master_token = some mt := by
    rw [hnet, issuedNet_master]
    exact hmt
  refine ⟨it, hlt, ?_, ?_, ?_, ?_, hstored, ?_, ?_⟩
  · rw [htok, f3, g4]
  · rw [htok, f1, g1]
  · rw [htok, f2, g2]
  · rcases fmid with hm | hm
    · rw [htok, hm, gmid]
      simp [pyOrOpt, hroot]
    · rw [htok, hm]
  · intro env2 i2 n2 d2
    exact issue_token_preserves_lookup env2 net' i2 n2 d2 n tok hstored
  · intro env2 m2
    rw [create_master_dup_master env2 net' m2 mt hmaster']
    exact hstored

/-- Witness for C3 on a concrete issuance from the literal root store. -/
theorem C3_issue_fields_witness :
    ∃ issuer_token, dictLookup netL.tokens "root" = some issuer_token ∧
      tokA.hierarchy_level = issuer_token.hierarchy_level + 1 ∧
      tokA.issuer_token_hash = some issuer_token.token_hash ∧
      tokA.issuer_id = some "root" := by
  obtain ⟨it, h1, h2, h3, h4, _⟩ :=
    C3_issue_fields envEx netL "root" "alice" none tokA netA tokL rfl (by decide) rfl
  exact ⟨it, h1, h2, h3, h4⟩

/-- C1: on a store whose issuer links form a tree (witnessed by a rank
that strictly decreases along resolvable issuer links), chain
verification of a stored token terminates and returns valid iff following
`issuer_id` links from the target reaches the registered root with every
issuer present and every `token_hash` link exact; a successful chain of
`k` tokens produces a trace of exactly `k` entries; a walk hitting a
missing issuer fails with a trace ending in the issuer-not-found message,
a hash mismatch fails with the hash-chain-broken message, and a
root-shaped token that is not the registered root fails.  Moreover a
freshly created root always chain-verifies with a trace of length 1. -/
theorem C1_chain_verification (net : PKITokenNetwork) (m : SecureToken → Nat) (n : String)
    (t0 : SecureToken) (fuel : Nat) (hm : MeasureOK net m)
    (h0 : dictLookup net.tokens n = some t0) (hf : m t0 < fuel) :
    (∃ b tr, net.verify_token fuel n = some (b, tr) ∧
      (b = true ↔ ∃ k, ChainToRoot net t0 k) ∧
      (∀ k, ChainToRoot net t0 k → b = true ∧ tr.length = k) ∧
      (FailsMissingIssuer net t0 → b = false ∧
        ∃ i, tr.getLast? = some ("Issuer " ++ i ++ " not found")) ∧
      (FailsHashMismatch net t0 → b = false ∧
        tr.getLast? = some "Hash chain broken - issuer token hash mismatch") ∧
      (FailsInvalidRoot net t0 → b = false)) ∧
    (∀ env net0 mid tok net2,
      PKITokenNetwork.create_master_token env net0 mid = (Except.ok tok, net2) →
      ∀ f, 0 < f → ∃ e, net2.verify_token f mid = some (true, [e])) := by
  constructor
  · obtain ⟨b, suffix, heq, hne, hiff, hlen, hmiss, hmm, hroot⟩ :=
      verifyTokenGo_spec net m hm fuel t0 [] ⟨n, h0⟩ hf
    refine ⟨b, suffix, ?_, hiff, hlen, hmiss, hmm, fun hfl => (hroot hfl).1⟩
    simp only [PKITokenNetwork.verify_token, h0]
    rw [heq]
    simp
  · intro env net0 mid tok net2 hc f hf0
    obtain ⟨tok0, hm0, hd0, hinit, htok, hnet⟩ := create_master_ok_inv env net0 mid tok net2 hc
    obtain ⟨g0, g1, _⟩ :=
      init_ok_fields env (tsOf (PKITokenNetwork.ensure_master_keys env net0).fresh)
        (tidOf (PKITokenNetwork.ensure_master_keys env net0).fresh) mid none none none
        (some mid) 0 tok0 hinit
    have hith : tok.issuer_token_hash = none := by
      rw [htok]
      exact ((add_master_signature_frame env tok0
        (PKITokenNetwork.ensure_master_keys env net0).master_private_key mid).2.1).trans g1
    have hlook : dictLookup net2.tokens mid = some tok := by
      rw [hnet]
      exact dictLookup_dictInsert_self
        (PKITokenNetwork.ensure_master_keys env net0).tokens mid tok
    have hmast : net2.master_token = some tok := by rw [hnet]
    cases f with
    | zero => omega
    | succ f' =>
      refine ⟨tok.node_id ++ " -> " ++ tok.token_hash.take 16 ++ "...", ?_⟩
      simp only [PKITokenNetwork.verify_token, hlook]
      simp [PKITokenNetwork.verifyTokenGo, hith, hmast]

/-- Witness for C1 on the literal one-root store with the constant rank. -/
theorem C1_chain_verification_witness :
    ∃ b tr, netL.verify_token 1 "root" = some (b, tr) ∧
      (b = true ↔ ∃ k, ChainToRoot netL tokL k) := by
  have hmOK : MeasureOK netL (fun _ => 0) := by
    intro t t' hin hl
    exfalso
    obtain ⟨k, hk⟩ := hin
    have ht : t = tokL := by
      by_cases hk' : k = "root"
      · subst hk'
        simp only [netL, dictLookup, if_pos rfl] at hk
        injection hk with hk
        exact hk.symm
      · simp only [netL, dictLookup, if_neg hk'] at hk
        exact absurd hk (by simp [dictLookup])
    subst ht
    exact absurd hl (by simp [tokL, pyLookupOpt])
  obtain ⟨⟨b, tr, h1, h2, _⟩, _⟩ :=
    C1_chain_verification netL (fun _ => 0) "root" tokL 1 hmOK rfl (by decide)
  exact ⟨b, tr, h1, h2⟩
